import Mathlib

/-!
# Virtual IPC queue module (vipc_queue_basic.c)

A shallow embedding of the queue registry of `vipc_queue_basic.c` and of its
four operations `vipc_create_queue`, `vipc_send_message`,
`vipc_receive_message` and `vipc_get_stats`, together with the `/proc` status
read `vipc_proc_show` and the shutdown `vipc_exit`.

Modelling conventions.

* The global array `queues[MAX_QUEUES]` is a list of `vipc_queue` records; the
  intrusive `list_head` of a queue is the list of its message records in link
  order (head first).
* `int msg_count` is an integer that wraps to 32 bits two's complement after
  each update (`wrap_int`), as the kernel is built with wrapping signed
  arithmetic; `size_t total_size`, `u64 total_operations` and
  `u64 total_lock_wait_time_ns` are naturals reduced modulo `2^64` after each
  update.
* What the environment supplies is an explicit argument: whether `kmalloc`
  succeeds (`alloc_ok`), the value of `ktime_get()` stored in the message
  (`now`), and the value returned by `measure_lock_time` (`lock_wait_ns`).
* The mutexes are not part of the state: every operation releases what it
  acquires, and operations are executed one after the other. The order in
  which an operation calls `mutex_lock` and `mutex_unlock` is kept apart, as
  its list of `LockEvent`s.
* Concurrent senders have a model of their own (`World`, `sender_step`,
  `run_schedule`): the state holds the owner of the queue mutex and the
  program counter of every thread, a schedule names the thread that takes the
  next step, and each `++` or `+=` of `vipc_send_message` is two steps, the
  read of the field and the write of the new value.
* A caller's buffer is a list of bytes; `memcpy` overwrites its first bytes.
-/

namespace VIPC

/-- One `char` of a payload. -/
abbrev Byte := Fin 256

/-- The constant `MAX_MSG_SIZE` of the source. -/
def MAX_MSG_SIZE : Nat := 4096

/-- The constant `MAX_QUEUES` of the source. -/
def MAX_QUEUES : Nat := 1

/-- Linux errno `EINVAL`. -/
def EINVAL : Int := 22

/-- Linux errno `ENOMEM`. -/
def ENOMEM : Int := 12

/-- Linux errno `ENOMSG`. -/
def ENOMSG : Int := 42

/-- Number of values of a `u64` or of a 64-bit `size_t`: `2^64`. -/
def U64_MOD : Nat := 18446744073709551616

/-- Largest value of an `int`: `2^31 - 1`. -/
def INT_MAX : Int := 2147483647

/-- Reduction of an integer to a 32-bit two's complement `int`. -/
def wrap_int (x : Int) : Int := (x + 2147483648) % 4294967296 - 2147483648

/-- Unsigned 64-bit addition. -/
def add_u64 (a b : Nat) : Nat := (a + b) % U64_MOD

/-- Unsigned 64-bit subtraction. -/
def sub_u64 (a b : Nat) : Nat := (a + (U64_MOD - b % U64_MOD)) % U64_MOD

/-- The record `struct vipc_message` (its `list` link is the position in the
queue's list). -/
structure vipc_message where
  mtype : Int
  msize : Nat
  timestamp : Int
  mtext : List Byte
deriving DecidableEq, Repr

/-- The record `struct vipc_queue` (without its mutex). -/
structure vipc_queue where
  queue_id : Int
  messages : List vipc_message
  msg_count : Int
  total_size : Nat
  in_use : Bool
  total_operations : Nat
  total_lock_wait_time_ns : Nat
deriving DecidableEq, Repr

/-- The global array `queues`. -/
abbrev Registry := List vipc_queue

/-- A slot of static storage before any initialisation: all zero. -/
def zero_queue : vipc_queue where
  queue_id := 0
  messages := []
  msg_count := 0
  total_size := 0
  in_use := false
  total_operations := 0
  total_lock_wait_time_ns := 0

/-- The array element `queues[i]`. -/
def slot (qs : Registry) (i : Nat) : vipc_queue := qs.getD i zero_queue

/-- The registry after `vipc_init`: the loop writes `in_use = 0` and
`queue_id = -1` into every slot of the zeroed static array. -/
def vipc_init : Registry :=
  List.replicate MAX_QUEUES { zero_queue with in_use := false, queue_id := -1 }

/-- What the body of the `if (!queues[i].in_use)` branch of
`vipc_create_queue` writes into slot `i`. -/
def fresh_queue (i : Nat) : vipc_queue where
  queue_id := i
  messages := []
  msg_count := 0
  total_size := 0
  in_use := true
  total_operations := 0
  total_lock_wait_time_ns := 0

/-- The loop `for (i = ...; i < MAX_QUEUES; i++)` of `vipc_create_queue`,
entered at index `i` with `n` iterations left. -/
def create_loop (qs : Registry) : Nat → Nat → Int × Registry
  | _, 0 => (-1, qs)
  | i, n + 1 =>
    if (slot qs i).in_use = false then
      ((i : Int), qs.set i (fresh_queue i))
    else
      create_loop qs (i + 1) n

/-- The function `vipc_create_queue`: the returned `int` and the registry
afterwards. -/
def vipc_create_queue (qs : Registry) : Int × Registry :=
  create_loop qs 0 MAX_QUEUES

/-- The test `qid < 0 || qid >= MAX_QUEUES || !queues[qid].in_use` that opens
`vipc_send_message` and `vipc_receive_message`. -/
def bad_qid (qs : Registry) (qid : Int) : Bool :=
  decide (qid < 0) || decide (qid ≥ (MAX_QUEUES : Int)) || !(slot qs qid.toNat).in_use

/-- The statements of `vipc_send_message` between taking and releasing the
queue lock: `list_add_tail`, `msg_count++`, `total_size += msize`,
`total_operations++`, `total_lock_wait_time_ns += lock_wait_ns`. -/
def send_locked (q : vipc_queue) (msg : vipc_message) (lock_wait_ns : Nat) : vipc_queue where
  queue_id := q.queue_id
  messages := q.messages ++ [msg]
  msg_count := wrap_int (q.msg_count + 1)
  total_size := add_u64 q.total_size msg.msize
  in_use := q.in_use
  total_operations := add_u64 q.total_operations 1
  total_lock_wait_time_ns := add_u64 q.total_lock_wait_time_ns lock_wait_ns

/-- The function `vipc_send_message`: the returned `int` and the registry
afterwards. `mtext` is the caller's buffer, of which `msize` bytes are copied. -/
def vipc_send_message (qs : Registry) (qid : Int) (mtype : Int) (mtext : List Byte)
    (msize : Nat) (alloc_ok : Bool) (now : Int) (lock_wait_ns : Nat) : Int × Registry :=
  if bad_qid qs qid then (-EINVAL, qs)
  else if msize > MAX_MSG_SIZE then (-EINVAL, qs)
  else if alloc_ok = false then (-ENOMEM, qs)
  else
    let msg : vipc_message :=
      { mtype := mtype, msize := msize, timestamp := now, mtext := mtext.take msize }
    (0, qs.set qid.toNat (send_locked (slot qs qid.toNat) msg lock_wait_ns))

/-- The walk `list_for_each_entry_safe` of `vipc_receive_message` with its
`break`: the first record with `mtype == 0 || msg->mtype == mtype`, and the
list once that record is unlinked; `none` when the walk reaches the end. -/
def scan_unlink (mtype : Int) : List vipc_message → Option (vipc_message × List vipc_message)
  | [] => none
  | m :: rest =>
    if mtype = 0 ∨ m.mtype = mtype then some (m, rest)
    else
      match scan_unlink mtype rest with
      | none => none
      | some (found, rest1) => some (found, m :: rest1)

/-- The call `memcpy(dst, src, n)` on a destination buffer held as a list. -/
def memcpy (dst src : List Byte) (n : Nat) : List Byte := src.take n ++ dst.drop n

/-- The statements of the matching branch of `vipc_receive_message` that
write the queue: `list_del`, `msg_count--`, `total_size -= msg->msize`,
`total_operations++`, `total_lock_wait_time_ns += lock_wait_ns`; `rest` is
the list once `msg` is unlinked. -/
def recv_locked (q : vipc_queue) (msg : vipc_message) (rest : List vipc_message)
    (lock_wait_ns : Nat) : vipc_queue where
  queue_id := q.queue_id
  messages := rest
  msg_count := wrap_int (q.msg_count - 1)
  total_size := sub_u64 q.total_size msg.msize
  in_use := q.in_use
  total_operations := add_u64 q.total_operations 1
  total_lock_wait_time_ns := add_u64 q.total_lock_wait_time_ns lock_wait_ns

/-- What `vipc_receive_message` leaves behind: the returned `int`, the
caller's buffer `mtext`, the cell `*actual_size`, and the registry. -/
structure recv_out where
  ret : Int
  mtext : List Byte
  actual_size : Nat
  queues : Registry
deriving DecidableEq, Repr

/-- The function `vipc_receive_message`. `mtext` and `actual_size` are the
contents of the caller's buffer and of `*actual_size` before the call. -/
def vipc_receive_message (qs : Registry) (qid : Int) (mtype : Int) (mtext : List Byte)
    (maxsize : Nat) (actual_size : Nat) (lock_wait_ns : Nat) : recv_out :=
  if bad_qid qs qid then
    { ret := -EINVAL, mtext := mtext, actual_size := actual_size, queues := qs }
  else
    match scan_unlink mtype (slot qs qid.toNat).messages with
    | none => { ret := -ENOMSG, mtext := mtext, actual_size := actual_size, queues := qs }
    | some (msg, rest) =>
      let copy_size := min msg.msize maxsize
      { ret := 0
        mtext := memcpy mtext msg.mtext copy_size
        actual_size := msg.msize
        queues := qs.set qid.toNat (recv_locked (slot qs qid.toNat) msg rest lock_wait_ns) }

/-- The division `a / b` of two `u64` values in C. It has no result when the
divisor is 0 (the processor raises a divide error). -/
def div_u64 (a b : Nat) : Option Nat := if b = 0 then none else some (a / b)

/-- The average computed by `vipc_get_stats` and by `vipc_proc_show`:
`avg = 0; if (total_operations > 0) avg = total_lock_wait_time_ns / total_operations;`.
The result is `none` when the division is performed with a zero divisor. -/
def avg_lock_wait (q : vipc_queue) : Option Nat :=
  if q.total_operations > 0 then div_u64 q.total_lock_wait_time_ns q.total_operations
  else some 0

/-- The line that `vipc_get_stats` prints. -/
structure stats_line where
  qid : Int
  ops : Nat
  avg_lock_wait_ns : Nat
deriving DecidableEq, Repr

/-- The function `vipc_get_stats`. It returns `void` and tests nothing about
`qid`: it locks `queues[qid]`, computes the average and prints the line. The
result is the printed line; `none` stands for an index outside the array
`queues`, or for a division by zero, where the C program has no defined
behaviour. No field of a queue is written. -/
def vipc_get_stats (qs : Registry) (qid : Int) : Option stats_line :=
  if 0 ≤ qid ∧ qid < (MAX_QUEUES : Int) then
    match avg_lock_wait (slot qs qid.toNat) with
    | none => none
    | some avg =>
      some { qid := qid
             ops := (slot qs qid.toNat).total_operations
             avg_lock_wait_ns := avg }
  else none

/-- The block that `vipc_proc_show` prints for one queue in use. -/
structure proc_block where
  queue_id : Nat
  messages : Int
  total_size : Nat
  total_operations : Nat
  avg_lock_wait : Nat
deriving DecidableEq, Repr

/-- The loop of `vipc_proc_show` over the slots `is`: one block per slot in
use, in index order; `none` when a division by zero is met. -/
def proc_show_blocks (qs : Registry) : List Nat → Option (List proc_block)
  | [] => some []
  | i :: is =>
    if (slot qs i).in_use then
      match avg_lock_wait (slot qs i) with
      | none => none
      | some avg =>
        match proc_show_blocks qs is with
        | none => none
        | some bs =>
          some ({ queue_id := i
                  messages := (slot qs i).msg_count
                  total_size := (slot qs i).total_size
                  total_operations := (slot qs i).total_operations
                  avg_lock_wait := avg } :: bs)
    else proc_show_blocks qs is

/-- The function `vipc_proc_show`: the blocks printed for the slots
`0 .. MAX_QUEUES - 1`. -/
def vipc_proc_show (qs : Registry) : Option (List proc_block) :=
  proc_show_blocks qs (List.range MAX_QUEUES)

/-- A call of one of the four operations, with its arguments and with what
the environment supplies during the call. -/
inductive Op where
  | create
  | send (qid : Int) (mtype : Int) (mtext : List Byte) (msize : Nat)
      (alloc_ok : Bool) (now : Int) (lock_wait_ns : Nat)
  | receive (qid : Int) (mtype : Int) (mtext : List Byte) (maxsize : Nat)
      (actual_size : Nat) (lock_wait_ns : Nat)
  | stats (qid : Int)
deriving DecidableEq, Repr

/-- What a call hands back to its caller. -/
inductive Reply where
  | created (ret : Int)
  | sent (ret : Int)
  | received (ret : Int) (mtext : List Byte) (actual_size : Nat)
  | stats (line : stats_line)
deriving DecidableEq, Repr

/-- One call: the reply and the registry afterwards. `none` only where
`vipc_get_stats` has no result. -/
def exec (qs : Registry) : Op → Option (Reply × Registry)
  | .create => some (.created (vipc_create_queue qs).1, (vipc_create_queue qs).2)
  | .send qid mtype mtext msize alloc_ok now w =>
    some (.sent (vipc_send_message qs qid mtype mtext msize alloc_ok now w).1,
          (vipc_send_message qs qid mtype mtext msize alloc_ok now w).2)
  | .receive qid mtype mtext maxsize actual_size w =>
    let r := vipc_receive_message qs qid mtype mtext maxsize actual_size w
    some (.received r.ret r.mtext r.actual_size, r.queues)
  | .stats qid =>
    match vipc_get_stats qs qid with
    | none => none
    | some line => some (.stats line, qs)

/-- A sequence of calls, one after the other: the replies in call order and
the final registry. -/
def run (qs : Registry) : List Op → Option (List Reply × Registry)
  | [] => some ([], qs)
  | op :: ops =>
    match exec qs op with
    | none => none
    | some (r, qs1) =>
      match run qs1 ops with
      | none => none
      | some (rs, qs2) => some (r :: rs, qs2)

/-- The sum of the `msize` fields of a list of messages. -/
def sum_msize (l : List vipc_message) : Nat := (l.map (fun m => m.msize)).sum

/-- The data-model invariant of one queue, in the arithmetic of the fields:
`msg_count` is the length of the list as an `int`, `total_size` is the sum of
the payload sizes as a `size_t`, and no payload exceeds `MAX_MSG_SIZE`. -/
def queue_ok (q : vipc_queue) : Prop :=
  q.msg_count = wrap_int q.messages.length ∧
  q.total_size = sum_msize q.messages % U64_MOD ∧
  ∀ m ∈ q.messages, m.msize ≤ MAX_MSG_SIZE

/-- Every queue in use satisfies `queue_ok`. -/
def reg_ok (qs : Registry) : Prop :=
  ∀ q ∈ qs, q.in_use = true → queue_ok q

/-- A message to send: its type and payload, with the clock value and the
lock wait that the environment supplies during the call. -/
structure send_args where
  mtype : Int
  mtext : List Byte
  now : Int
  lock_wait_ns : Nat
deriving DecidableEq, Repr

/-- What a receiver brings: its buffer, `maxsize`, the old content of
`*actual_size`, and the lock wait supplied by the environment. -/
structure recv_args where
  mtext : List Byte
  maxsize : Nat
  actual_size : Nat
  lock_wait_ns : Nat
deriving DecidableEq, Repr

/-- The call `vipc_send_message(qid, a.mtype, a.mtext, len(a.mtext))` with a
successful allocation. -/
def send_op (qid : Int) (a : send_args) : Op :=
  .send qid a.mtype a.mtext a.mtext.length true a.now a.lock_wait_ns

/-- The call `vipc_receive_message(qid, mtype, b.mtext, b.maxsize, &actual_size)`. -/
def recv_op (qid : Int) (mtype : Int) (b : recv_args) : Op :=
  .receive qid mtype b.mtext b.maxsize b.actual_size b.lock_wait_ns

/-- The record that `send_op` links into the queue. -/
def stored (a : send_args) : vipc_message where
  mtype := a.mtype
  msize := a.mtext.length
  timestamp := a.now
  mtext := a.mtext

/-- Two messages of different types, each paired with the receiver that will
take it. -/
def sample_pairs : List (send_args × recv_args) :=
  [({ mtype := 7, mtext := [1, 2, 3], now := 10, lock_wait_ns := 4 },
    { mtext := [9, 9, 9, 9], maxsize := 4, actual_size := 0, lock_wait_ns := 5 }),
   ({ mtype := 2, mtext := [4, 5], now := 11, lock_wait_ns := 6 },
    { mtext := [8, 8], maxsize := 2, actual_size := 0, lock_wait_ns := 7 })]

/-- A receiver with a four-byte buffer. -/
def sample_recv : recv_args where
  mtext := [9, 9, 9, 9]
  maxsize := 4
  actual_size := 77
  lock_wait_ns := 3

/-- Three messages of types 4, 9, 4. -/
def msg_a1 : send_args := { mtype := 4, mtext := [1, 1], now := 20, lock_wait_ns := 1 }

/-- The message of type 9 sent between the two of type 4. -/
def msg_b : send_args := { mtype := 9, mtext := [2, 2, 2], now := 21, lock_wait_ns := 2 }

/-- The second message of type 4. -/
def msg_a2 : send_args := { mtype := 4, mtext := [3], now := 22, lock_wait_ns := 3 }

/-- A registry whose only queue holds the stored records of types 4, 9, 4. -/
def sample_aba : Registry :=
  [{ queue_id := 0, messages := [stored msg_a1, stored msg_b, stored msg_a2], msg_count := 3
     total_size := 6, in_use := true, total_operations := 3, total_lock_wait_time_ns := 6 }]

/-- A message with a six-byte payload. -/
def msg_six : send_args :=
  { mtype := 3, mtext := [10, 11, 12, 13, 14, 15], now := 30, lock_wait_ns := 1 }

/-- A payload of exactly `MAX_MSG_SIZE` bytes. -/
def payload_max : List Byte := List.replicate MAX_MSG_SIZE 0

/-- The lock wait that a call adds to the counters of queue `qid`: the
`lock_wait_ns` of a send or receive on `qid` that returned 0, nothing for any
other call. -/
def counted_wait (qid : Int) : Op → Reply → Option Nat
  | .send q _ _ _ _ _ w, .sent ret => if q = qid ∧ ret = 0 then some w else none
  | .receive q _ _ _ _ w, .received ret _ _ => if q = qid ∧ ret = 0 then some w else none
  | _, _ => none

/-- The lock waits of the successful sends and receives on queue `qid` in a
run, in call order. -/
def waits (qid : Int) : List Op → List Reply → List Nat
  | op :: ops, r :: rs =>
    match counted_wait qid op r with
    | some w => w :: waits qid ops rs
    | none => waits qid ops rs
  | _, _ => []

/-- The largest value of `ktime_to_ns`, a signed 64-bit count: `2^63 - 1`. -/
def S64_MAX : Nat := 9223372036854775807

/-- Two sends of different types and one receive filtered on the second
type, all on queue 0. -/
def sample_calls : List Op :=
  [.send 0 5 [1, 2, 3] 3 true 100 7, .send 0 6 [4, 5] 2 true 101 9,
   .receive 0 6 [0, 0, 0, 0] 1 99 11]

/-- The replies of `sample_calls` on a queue just created. -/
def sample_call_replies : List Reply :=
  [.sent 0, .sent 0, .received 0 [4, 0, 0, 0] 2]

/-- A short run used to instantiate the theorems: one create, then
`sample_calls`. -/
def sample_ops : List Op := .create :: sample_calls

/-- The replies of `sample_ops` from the initial registry. -/
def sample_replies : List Reply := .created 0 :: sample_call_replies

/-- The only queue of the registry after `sample_ops`. -/
def sample_queue : vipc_queue where
  queue_id := 0
  messages := [{ mtype := 5, msize := 3, timestamp := 100, mtext := [1, 2, 3] }]
  msg_count := 1
  total_size := 3
  in_use := true
  total_operations := 3
  total_lock_wait_time_ns := 27

/-- The two kinds of mutex of the module: the global `queues_lock` and the
member `queues[i].lock`. -/
inductive Lock where
  | queues_lock
  | queue_lock (i : Int)
deriving DecidableEq, Repr

/-- A call `mutex_lock` or `mutex_unlock`. -/
inductive LockEvent where
  | lock (l : Lock)
  | unlock (l : Lock)
deriving DecidableEq, Repr

/-- The lock calls of `vipc_create_queue`: `queues_lock` is taken before the
loop and released on both exits. -/
def create_events : List LockEvent := [.lock .queues_lock, .unlock .queues_lock]

/-- The lock calls of `vipc_send_message`: none on the three early returns,
otherwise `measure_lock_time(&queues[qid].lock)` and the `mutex_unlock`. -/
def send_events (qs : Registry) (qid : Int) (msize : Nat) (alloc_ok : Bool) : List LockEvent :=
  if bad_qid qs qid then []
  else if msize > MAX_MSG_SIZE then []
  else if alloc_ok = false then []
  else [.lock (.queue_lock qid), .unlock (.queue_lock qid)]

/-- The lock calls of `vipc_receive_message`: none on the early return,
otherwise `measure_lock_time(&queues[qid].lock)` and the `mutex_unlock` that
follows the walk, match or not. -/
def receive_events (qs : Registry) (qid : Int) : List LockEvent :=
  if bad_qid qs qid then []
  else [.lock (.queue_lock qid), .unlock (.queue_lock qid)]

/-- The lock calls of `vipc_get_stats`. -/
def stats_events (qid : Int) : List LockEvent :=
  [.lock (.queue_lock qid), .unlock (.queue_lock qid)]

/-- The lock calls of the loop body shared by `vipc_proc_show` and
`vipc_exit`, over the slots `is`: for each slot in use, lock and unlock of
its `lock`. -/
def slot_sections (qs : Registry) : List Nat → List LockEvent
  | [] => []
  | i :: is =>
    if (slot qs i).in_use then
      .lock (.queue_lock i) :: .unlock (.queue_lock i) :: slot_sections qs is
    else slot_sections qs is

/-- The lock calls of `vipc_proc_show`: `queues_lock` is held around the whole
loop over the slots. -/
def proc_show_events (qs : Registry) : List LockEvent :=
  .lock .queues_lock :: (slot_sections qs (List.range MAX_QUEUES) ++ [.unlock .queues_lock])

/-- The lock calls of `vipc_exit`: the loop over the slots, without
`queues_lock`. -/
def exit_events (qs : Registry) : List LockEvent :=
  slot_sections qs (List.range MAX_QUEUES)

/-- The lock calls of one call of the four operations. -/
def op_events (qs : Registry) : Op → List LockEvent
  | .create => create_events
  | .send qid _ _ msize alloc_ok _ _ => send_events qs qid msize alloc_ok
  | .receive qid _ _ _ _ _ => receive_events qs qid
  | .stats qid => stats_events qid

/-- Whether a lock is some `queues[i].lock`. -/
def is_queue_lock : Lock → Bool
  | .queues_lock => false
  | .queue_lock _ => true

/-- Whether, somewhere in the sequence, a `queues[i].lock` is requested while
`queues_lock` is among the locks held (`held` at the start). -/
def queue_under_registry : List Lock → List LockEvent → Bool
  | _, [] => false
  | held, .lock l :: es =>
    (is_queue_lock l && held.contains .queues_lock) || queue_under_registry (l :: held) es
  | held, .unlock l :: es => queue_under_registry (held.erase l) es

/-- Whether, somewhere in the sequence, `queues_lock` is requested while some
`queues[i].lock` is among the locks held (`held` at the start). -/
def registry_under_queue : List Lock → List LockEvent → Bool
  | _, [] => false
  | held, .lock l :: es =>
    (decide (l = .queues_lock) && held.any is_queue_lock) || registry_under_queue (l :: held) es
  | held, .unlock l :: es => registry_under_queue (held.erase l) es

/-- Smallest value of an `int`: `-2^31`. -/
def INT_MIN : Int := -2147483648

/-- The walk `list_for_each_entry_safe` of `vipc_exit`: every record met is
unlinked with `list_del` and freed; what is returned is the list left. -/
def drain_list : List vipc_message → List vipc_message
  | [] => []
  | _ :: rest => drain_list rest

/-- What the body of the `if (queues[i].in_use)` branch of `vipc_exit` leaves
in the slot: the list is drained, no other field is written. -/
def drained (q : vipc_queue) : vipc_queue where
  queue_id := q.queue_id
  messages := drain_list q.messages
  msg_count := q.msg_count
  total_size := q.total_size
  in_use := q.in_use
  total_operations := q.total_operations
  total_lock_wait_time_ns := q.total_lock_wait_time_ns

/-- The loop `for (i = ...; i < MAX_QUEUES; i++)` of `vipc_exit`, entered at
index `i` with `n` iterations left. -/
def exit_loop : Nat → Nat → Registry → Registry
  | _, 0, qs => qs
  | i, n + 1, qs =>
    if (slot qs i).in_use then exit_loop (i + 1) n (qs.set i (drained (slot qs i)))
    else exit_loop (i + 1) n qs

/-- The function `vipc_exit`, as far as the array `queues` is concerned. -/
def vipc_exit (qs : Registry) : Registry := exit_loop 0 MAX_QUEUES qs

/-- No message record held in any slot of the array has `msize` above
`MAX_MSG_SIZE`. -/
def msgs_bounded (qs : Registry) : Prop :=
  ∀ q ∈ qs, ∀ m ∈ q.messages, m.msize ≤ MAX_MSG_SIZE

/-- A run of `n` round trips on queue 0: a send of an empty message of type 1
followed by a receive filtered on type 1. -/
def round_trips : Nat → List Op
  | 0 => []
  | n + 1 => .send 0 1 [] 0 true 0 0 :: .receive 0 1 [] 0 0 0 :: round_trips n

/-- A receiver with an eight-byte buffer. -/
def wide_recv : recv_args where
  mtext := [0, 0, 0, 0, 0, 0, 0, 0]
  maxsize := 8
  actual_size := 0
  lock_wait_ns := 2

theorem wrap_int_succ (a : Int) : wrap_int (wrap_int a + 1) = wrap_int (a + 1) := by
  unfold wrap_int; omega

theorem wrap_int_pred (a : Int) : wrap_int (wrap_int a - 1) = wrap_int (a - 1) := by
  unfold wrap_int; omega

theorem wrap_int_small (n : Nat) (h : (n : Int) ≤ INT_MAX) : wrap_int n = n := by
  unfold wrap_int; unfold INT_MAX at h; omega

theorem add_u64_mod (a b : Nat) : add_u64 (a % U64_MOD) b = (a + b) % U64_MOD := by
  unfold add_u64 U64_MOD; omega

theorem sub_u64_mod (a b : Nat) :
    sub_u64 ((a + b) % U64_MOD) b = a % U64_MOD := by
  unfold sub_u64 U64_MOD; omega

theorem add_u64_shift (a w n : Nat) :
    (add_u64 a w + n) % U64_MOD = (a + (w + n)) % U64_MOD := by
  unfold add_u64 U64_MOD; omega

theorem sum_msize_append (l1 l2 : List vipc_message) :
    sum_msize (l1 ++ l2) = sum_msize l1 + sum_msize l2 := by
  simp [sum_msize]

theorem sum_msize_cons (m : vipc_message) (l : List vipc_message) :
    sum_msize (m :: l) = m.msize + sum_msize l := by
  simp [sum_msize]

theorem sum_msize_le (l : List vipc_message) (h : ∀ m ∈ l, m.msize ≤ MAX_MSG_SIZE) :
    sum_msize l ≤ MAX_MSG_SIZE * l.length := by
  induction l with
  | nil => simp [sum_msize]
  | cons m l ih =>
    have h1 := h m (List.mem_cons_self m l)
    have h2 := ih (fun x hx => h x (List.mem_cons_of_mem m hx))
    rw [sum_msize_cons, List.length_cons, Nat.mul_succ]
    omega

/-! ## The registry as an array -/

theorem slot_mem (qs : Registry) (i : Nat) (h : (slot qs i).in_use = true) :
    i < qs.length ∧ slot qs i ∈ qs := by
  unfold slot at *
  by_cases hi : i < qs.length
  · refine ⟨hi, ?_⟩
    rw [List.getD_eq_getElem qs zero_queue hi]
    exact List.getElem_mem hi
  · rw [List.getD_eq_default qs zero_queue (Nat.le_of_not_lt hi)] at h
    simp [zero_queue] at h

theorem slot_set_same (qs : Registry) (i : Nat) (q : vipc_queue) (h : i < qs.length) :
    slot (qs.set i q) i = q := by
  simp [slot, List.getD_eq_getElem?_getD, List.getElem?_set, h]

theorem slot_set_other (qs : Registry) (i j : Nat) (q : vipc_queue) (h : i ≠ j) :
    slot (qs.set i q) j = slot qs j := by
  simp [slot, List.getD_eq_getElem?_getD, List.getElem?_set, h]

/-! ## The walk of `vipc_receive_message` -/

theorem scan_unlink_some (t : Int) (l : List vipc_message) (m : vipc_message)
    (rest : List vipc_message) (h : scan_unlink t l = some (m, rest)) :
    ∃ pre post, l = pre ++ m :: post ∧ rest = pre ++ post ∧
      (t = 0 ∨ m.mtype = t) ∧ ∀ x ∈ pre, ¬ (t = 0 ∨ x.mtype = t) := by
  induction l generalizing rest with
  | nil => simp [scan_unlink] at h
  | cons a l ih =>
    unfold scan_unlink at h
    by_cases hc : t = 0 ∨ a.mtype = t
    · rw [if_pos hc] at h
      injection h with h
      injection h with h1 h2
      subst h1; subst h2
      exact ⟨[], l, rfl, rfl, hc, by simp⟩
    · rw [if_neg hc] at h
      cases hs : scan_unlink t l with
      | none => rw [hs] at h; simp at h
      | some p =>
        obtain ⟨f, r1⟩ := p
        rw [hs] at h
        injection h with h
        injection h with h1 h2
        subst h1; subst h2
        obtain ⟨pre, post, e1, e2, e3, e4⟩ := ih r1 hs
        refine ⟨a :: pre, post, by rw [e1]; rfl, by rw [e2]; rfl, e3, ?_⟩
        intro x hx
        rcases List.mem_cons.mp hx with hx | hx
        · rw [hx]; exact hc
        · exact e4 x hx

theorem scan_unlink_none (t : Int) (l : List vipc_message) :
    scan_unlink t l = none ↔ ∀ x ∈ l, ¬ (t = 0 ∨ x.mtype = t) := by
  induction l with
  | nil => simp [scan_unlink]
  | cons a l ih =>
    unfold scan_unlink
    by_cases hc : t = 0 ∨ a.mtype = t
    · rw [if_pos hc]
      constructor
      · intro h; simp at h
      · intro h; exact absurd hc (h a (List.mem_cons_self a l))
    · rw [if_neg hc]
      cases hs : scan_unlink t l with
      | none =>
        simp only [true_iff]
        intro x hx
        rcases List.mem_cons.mp hx with hx | hx
        · rw [hx]; exact hc
        · exact (ih.mp hs) x hx
      | some p =>
        constructor
        · intro h; simp at h
        · intro h
          have := ih.mpr (fun x hx => h x (List.mem_cons_of_mem a hx))
          rw [hs] at this; simp at this

theorem scan_unlink_split (t : Int) (pre post : List vipc_message) (m : vipc_message)
    (hm : t = 0 ∨ m.mtype = t) (hpre : ∀ x ∈ pre, ¬ (t = 0 ∨ x.mtype = t)) :
    scan_unlink t (pre ++ m :: post) = some (m, pre ++ post) := by
  induction pre with
  | nil => simp [scan_unlink, hm]
  | cons a pre ih =>
    have ha := hpre a (List.mem_cons_self a pre)
    have ih1 := ih (fun x hx => hpre x (List.mem_cons_of_mem a hx))
    rw [List.cons_append, scan_unlink, if_neg ha, ih1]
    rfl

/-! ## The queue test and the claimed slot -/

theorem bad_qid_false (qs : Registry) (qid : Int) (h : bad_qid qs qid = false) :
    0 ≤ qid ∧ qid < (MAX_QUEUES : Int) ∧ (slot qs qid.toNat).in_use = true := by
  unfold bad_qid at h
  simp only [Bool.or_eq_false_iff, decide_eq_false_iff_not, Bool.not_eq_false_eq_eq_true,
    Bool.not_eq_eq_eq_not, Bool.not_false] at h
  obtain ⟨⟨h1, h2⟩, h3⟩ := h
  exact ⟨by omega, by omega, h3⟩

theorem bad_qid_true (qs : Registry) (qid : Int) :
    bad_qid qs qid = true ↔
      (qid < 0 ∨ qid ≥ (MAX_QUEUES : Int) ∨ (slot qs qid.toNat).in_use = false) := by
  unfold bad_qid
  simp only [Bool.or_eq_true, decide_eq_true_eq, Bool.not_eq_eq_eq_not, Bool.not_true,
    or_assoc]

theorem create_loop_cases (qs : Registry) (i n : Nat) :
    (create_loop qs i n = (-1, qs) ∧ ∀ j, i ≤ j → j < i + n → (slot qs j).in_use = true) ∨
    ∃ j, i ≤ j ∧ j < i + n ∧ (slot qs j).in_use = false ∧
      (∀ k, i ≤ k → k < j → (slot qs k).in_use = true) ∧
      create_loop qs i n = ((j : Int), qs.set j (fresh_queue j)) := by
  induction n generalizing i with
  | zero =>
    left
    exact ⟨rfl, fun j h1 h2 => by omega⟩
  | succ n ih =>
    unfold create_loop
    by_cases hc : (slot qs i).in_use = false
    · right
      rw [if_pos hc]
      exact ⟨i, Nat.le_refl i, by omega, hc, fun k h1 h2 => by omega, rfl⟩
    · rw [if_neg hc]
      have hc1 : (slot qs i).in_use = true := by simpa using hc
      rcases ih (i + 1) with ⟨h1, h2⟩ | ⟨j, h1, h2, h3, h4, h5⟩
      · left
        refine ⟨h1, fun j hj1 hj2 => ?_⟩
        by_cases hij : j = i
        · rw [hij]; exact hc1
        · exact h2 j (by omega) (by omega)
      · right
        refine ⟨j, by omega, by omega, h3, fun k hk1 hk2 => ?_, h5⟩
        by_cases hik : k = i
        · rw [hik]; exact hc1
        · exact h4 k (by omega) hk2

/-! ## The branches of send and receive -/

theorem send_bad (qs : Registry) (qid mtype : Int) (mtext : List Byte) (msize : Nat)
    (alloc_ok : Bool) (now : Int) (w : Nat) (hb : bad_qid qs qid = true) :
    vipc_send_message qs qid mtype mtext msize alloc_ok now w = (-EINVAL, qs) := by
  unfold vipc_send_message; rw [if_pos hb]

theorem send_too_large (qs : Registry) (qid mtype : Int) (mtext : List Byte) (msize : Nat)
    (alloc_ok : Bool) (now : Int) (w : Nat) (hb : bad_qid qs qid = false)
    (hs : msize > MAX_MSG_SIZE) :
    vipc_send_message qs qid mtype mtext msize alloc_ok now w = (-EINVAL, qs) := by
  unfold vipc_send_message; rw [if_neg (by simp [hb]), if_pos hs]

theorem send_no_memory (qs : Registry) (qid mtype : Int) (mtext : List Byte) (msize : Nat)
    (now : Int) (w : Nat) (hb : bad_qid qs qid = false) (hs : msize ≤ MAX_MSG_SIZE) :
    vipc_send_message qs qid mtype mtext msize false now w = (-ENOMEM, qs) := by
  unfold vipc_send_message; rw [if_neg (by simp [hb]), if_neg (by omega), if_pos rfl]

theorem send_ok (qs : Registry) (qid mtype : Int) (mtext : List Byte) (msize : Nat)
    (now : Int) (w : Nat) (hb : bad_qid qs qid = false) (hs : msize ≤ MAX_MSG_SIZE) :
    vipc_send_message qs qid mtype mtext msize true now w =
      (0, qs.set qid.toNat (send_locked (slot qs qid.toNat)
        { mtype := mtype, msize := msize, timestamp := now, mtext := mtext.take msize } w)) := by
  unfold vipc_send_message
  rw [if_neg (by simp [hb]), if_neg (by omega), if_neg (by simp)]

theorem receive_bad (qs : Registry) (qid mtype : Int) (mtext : List Byte)
    (maxsize actual_size w : Nat) (hb : bad_qid qs qid = true) :
    vipc_receive_message qs qid mtype mtext maxsize actual_size w =
      { ret := -EINVAL, mtext := mtext, actual_size := actual_size, queues := qs } := by
  unfold vipc_receive_message; rw [if_pos hb]

theorem receive_none (qs : Registry) (qid mtype : Int) (mtext : List Byte)
    (maxsize actual_size w : Nat) (hb : bad_qid qs qid = false)
    (hs : scan_unlink mtype (slot qs qid.toNat).messages = none) :
    vipc_receive_message qs qid mtype mtext maxsize actual_size w =
      { ret := -ENOMSG, mtext := mtext, actual_size := actual_size, queues := qs } := by
  unfold vipc_receive_message; rw [if_neg (by simp [hb])]
  simp only [hs]

theorem receive_some (qs : Registry) (qid mtype : Int) (mtext : List Byte)
    (maxsize actual_size w : Nat) (msg : vipc_message) (rest : List vipc_message)
    (hb : bad_qid qs qid = false)
    (hs : scan_unlink mtype (slot qs qid.toNat).messages = some (msg, rest)) :
    vipc_receive_message qs qid mtype mtext maxsize actual_size w =
      { ret := 0
        mtext := memcpy mtext msg.mtext (min msg.msize maxsize)
        actual_size := msg.msize
        queues := qs.set qid.toNat (recv_locked (slot qs qid.toNat) msg rest w) } := by
  unfold vipc_receive_message; rw [if_neg (by simp [hb])]
  simp only [hs]

/-! ## Preservation of the invariant -/

theorem queue_ok_fresh (i : Nat) : queue_ok (fresh_queue i) := by
  refine ⟨?_, ?_, ?_⟩
  · simp [fresh_queue, wrap_int]
  · simp [fresh_queue, sum_msize]
  · intro m hm
    simp [fresh_queue] at hm

theorem reg_ok_create (qs : Registry) (h : reg_ok qs) : reg_ok (vipc_create_queue qs).2 := by
  unfold vipc_create_queue
  rcases create_loop_cases qs 0 MAX_QUEUES with ⟨h1, _⟩ | ⟨j, _, _, _, _, h5⟩
  · rw [h1]; exact h
  · rw [h5]
    intro q hq hu
    rcases List.mem_or_eq_of_mem_set hq with hq | hq
    · exact h q hq hu
    · rw [hq]; exact queue_ok_fresh j

theorem reg_ok_send (qs : Registry) (qid mtype : Int) (mtext : List Byte) (msize : Nat)
    (alloc_ok : Bool) (now : Int) (w : Nat) (h : reg_ok qs) :
    reg_ok (vipc_send_message qs qid mtype mtext msize alloc_ok now w).2 := by
  cases hb : bad_qid qs qid with
  | true => rw [send_bad _ _ _ _ _ _ _ _ hb]; exact h
  | false =>
    by_cases hs : msize > MAX_MSG_SIZE
    · rw [send_too_large _ _ _ _ _ _ _ _ hb hs]; exact h
    · have hs1 : msize ≤ MAX_MSG_SIZE := Nat.le_of_not_lt hs
      cases alloc_ok with
      | false => rw [send_no_memory _ _ _ _ _ _ _ hb hs1]; exact h
      | true =>
        rw [send_ok _ _ _ _ _ _ _ hb hs1]
        have hb1 := bad_qid_false qs qid hb
        obtain ⟨_, hmem⟩ := slot_mem qs qid.toNat hb1.2.2
        obtain ⟨k1, k2, k3⟩ := h _ hmem hb1.2.2
        intro q hq hu
        rcases List.mem_or_eq_of_mem_set hq with hq | hq
        · exact h q hq hu
        · rw [hq]
          refine ⟨?_, ?_, ?_⟩
          · simp only [send_locked, List.length_append, List.length_singleton, Nat.cast_add,
              Nat.cast_one]
            rw [k1, wrap_int_succ]
          · simp only [send_locked]
            rw [k2, add_u64_mod, sum_msize_append]
            simp [sum_msize]
          · intro m hm
            simp only [send_locked, List.mem_append, List.mem_singleton] at hm
            rcases hm with hm | hm
            · exact k3 m hm
            · rw [hm]; exact hs1

theorem reg_ok_receive (qs : Registry) (qid mtype : Int) (mtext : List Byte)
    (maxsize actual_size w : Nat) (h : reg_ok qs) :
    reg_ok (vipc_receive_message qs qid mtype mtext maxsize actual_size w).queues := by
  cases hb : bad_qid qs qid with
  | true => rw [receive_bad _ _ _ _ _ _ _ hb]; exact h
  | false =>
    have hb1 := bad_qid_false qs qid hb
    obtain ⟨_, hmem⟩ := slot_mem qs qid.toNat hb1.2.2
    obtain ⟨k1, k2, k3⟩ := h _ hmem hb1.2.2
    cases hs : scan_unlink mtype (slot qs qid.toNat).messages with
    | none => rw [receive_none _ _ _ _ _ _ _ hb hs]; exact h
    | some p =>
      obtain ⟨msg, rest⟩ := p
      rw [receive_some _ _ _ _ _ _ _ _ _ hb hs]
      obtain ⟨pre, post, e1, e2, _, _⟩ := scan_unlink_some _ _ _ _ hs
      intro q hq hu
      rcases List.mem_or_eq_of_mem_set hq with hq | hq
      · exact h q hq hu
      · rw [hq]
        refine ⟨?_, ?_, ?_⟩
        · simp only [recv_locked]
          rw [k1, wrap_int_pred, e1, e2]
          congr 1
          simp only [List.length_append, List.length_cons, Nat.cast_add, Nat.cast_one]
          omega
        · simp only [recv_locked]
          rw [k2, e1, e2, sum_msize_append, sum_msize_append, sum_msize_cons]
          rw [show sum_msize pre + (msg.msize + sum_msize post)
              = (sum_msize pre + sum_msize post) + msg.msize by omega]
          exact sub_u64_mod _ _
        · intro m hm
          apply k3 m
          rw [e1]
          simp only [recv_locked, e2, List.mem_append, List.mem_cons] at hm ⊢
          tauto

theorem reg_ok_exec (qs qs1 : Registry) (op : Op) (r : Reply) (h : reg_ok qs)
    (he : exec qs op = some (r, qs1)) : reg_ok qs1 := by
  cases op with
  | create =>
    simp only [exec, Option.some.injEq, Prod.mk.injEq] at he
    rw [← he.2]; exact reg_ok_create qs h
  | send qid mtype mtext msize alloc_ok now w =>
    simp only [exec, Option.some.injEq, Prod.mk.injEq] at he
    rw [← he.2]; exact reg_ok_send qs qid mtype mtext msize alloc_ok now w h
  | receive qid mtype mtext maxsize actual_size w =>
    simp only [exec, Option.some.injEq, Prod.mk.injEq] at he
    rw [← he.2]; exact reg_ok_receive qs qid mtype mtext maxsize actual_size w h
  | stats qid =>
    simp only [exec] at he
    cases hg : vipc_get_stats qs qid with
    | none => rw [hg] at he; simp at he
    | some line =>
      rw [hg] at he
      simp only [Option.some.injEq, Prod.mk.injEq] at he
      rw [← he.2]; exact h

theorem run_cons (qs : Registry) (op : Op) (ops : List Op) (rs : List Reply) (qs2 : Registry)
    (h : run qs (op :: ops) = some (rs, qs2)) :
    ∃ r qs1 rs1, exec qs op = some (r, qs1) ∧ run qs1 ops = some (rs1, qs2) ∧ rs = r :: rs1 := by
  unfold run at h
  cases he : exec qs op with
  | none => rw [he] at h; simp at h
  | some p =>
    obtain ⟨r, qs1⟩ := p
    rw [he] at h
    cases hr : run qs1 ops with
    | none => simp [hr] at h
    | some p2 =>
      obtain ⟨rs1, qs3⟩ := p2
      simp only [hr, Option.some.injEq, Prod.mk.injEq] at h
      exact ⟨r, qs1, rs1, rfl, by rw [hr, h.2], h.1.symm⟩

theorem reg_ok_run (ops : List Op) (qs qs2 : Registry) (rs : List Reply) (h : reg_ok qs)
    (hr : run qs ops = some (rs, qs2)) : reg_ok qs2 := by
  induction ops generalizing qs rs with
  | nil =>
    simp only [run, Option.some.injEq, Prod.mk.injEq] at hr
    rw [← hr.2]; exact h
  | cons op ops ih =>
    obtain ⟨r, qs1, rs1, he, hr1, _⟩ := run_cons qs op ops rs qs2 hr
    exact ih qs1 rs1 (reg_ok_exec qs qs1 op r h he) hr1

theorem reg_ok_init : reg_ok vipc_init := by
  intro q hq hu
  simp only [vipc_init, List.mem_replicate] at hq
  rw [hq.2] at hu
  simp at hu

/-! ## Runs -/

theorem run_step (qs qs1 qs2 : Registry) (op : Op) (ops : List Op) (r : Reply)
    (rs : List Reply) (he : exec qs op = some (r, qs1)) (hr : run qs1 ops = some (rs, qs2)) :
    run qs (op :: ops) = some (r :: rs, qs2) := by
  rw [run, he]
  simp only [hr]

theorem run_empty_sends (n : Nat) (q : vipc_queue) (c : Int) (hu : q.in_use = true)
    (hc : q.msg_count = wrap_int c) :
    ∃ rs q1, run [q] (List.replicate n (Op.send 0 1 [] 0 true 0 0)) = some (rs, [q1]) ∧
      q1.in_use = true ∧ q1.messages.length = q.messages.length + n ∧
      q1.msg_count = wrap_int (c + n) := by
  induction n generalizing q c with
  | zero =>
    exact ⟨[], q, rfl, hu, rfl, by simpa using hc⟩
  | succ n ih =>
    have hb : bad_qid [q] 0 = false := by simp [bad_qid, slot, MAX_QUEUES, hu]
    have hs := send_ok [q] 0 1 [] 0 0 0 hb (by simp [MAX_MSG_SIZE])
    have he : exec [q] (Op.send 0 1 [] 0 true 0 0) = some (Reply.sent 0,
        [send_locked q { mtype := 1, msize := 0, timestamp := 0, mtext := [] } 0]) := by
      simp only [exec, hs]
      rfl
    have key : ∃ q2, exec [q] (Op.send 0 1 [] 0 true 0 0) = some (Reply.sent 0, [q2]) ∧
        q2.in_use = true ∧ q2.messages.length = q.messages.length + 1 ∧
        q2.msg_count = wrap_int (q.msg_count + 1) :=
      ⟨_, he, hu, by simp [send_locked], rfl⟩
    obtain ⟨q2, he2, hu2, hl2, hc2⟩ := key
    obtain ⟨rs, q1, h1, h2, h3, h4⟩ := ih q2 (c + 1) hu2 (by rw [hc2, hc, wrap_int_succ])
    refine ⟨Reply.sent 0 :: rs, q1, ?_, h2, ?_, ?_⟩
    · rw [List.replicate_succ]
      exact run_step _ _ _ _ _ _ _ he2 h1
    · rw [h3, hl2]; omega
    · rw [h4]; congr 1; push_cast; omega

/-! ## Single calls on a queue in use -/

theorem bad_qid_set (qs : Registry) (qid : Int) (q : vipc_queue)
    (hb : bad_qid qs qid = false) (hq : q.in_use = true) :
    bad_qid (qs.set qid.toNat q) qid = false ∧ slot (qs.set qid.toNat q) qid.toNat = q := by
  obtain ⟨h1, h2, h3⟩ := bad_qid_false qs qid hb
  obtain ⟨hlt, _⟩ := slot_mem qs qid.toNat h3
  have hs := slot_set_same qs qid.toNat q hlt
  refine ⟨?_, hs⟩
  unfold bad_qid
  rw [hs, hq]
  simp only [Bool.not_true, Bool.or_false, Bool.or_eq_false_iff, decide_eq_false_iff_not]
  exact ⟨by omega, by omega⟩

theorem exec_send_op (qs : Registry) (qid : Int) (a : send_args)
    (hb : bad_qid qs qid = false) (hs : a.mtext.length ≤ MAX_MSG_SIZE) :
    exec qs (send_op qid a) = some (Reply.sent 0,
        qs.set qid.toNat (send_locked (slot qs qid.toNat) (stored a) a.lock_wait_ns)) ∧
      bad_qid (qs.set qid.toNat (send_locked (slot qs qid.toNat) (stored a) a.lock_wait_ns)) qid
        = false ∧
      slot (qs.set qid.toNat (send_locked (slot qs qid.toNat) (stored a) a.lock_wait_ns))
        qid.toNat = send_locked (slot qs qid.toNat) (stored a) a.lock_wait_ns := by
  have h := send_ok qs qid a.mtype a.mtext a.mtext.length a.now a.lock_wait_ns hb hs
  rw [List.take_length] at h
  obtain ⟨_, _, h3⟩ := bad_qid_false qs qid hb
  obtain ⟨k1, k2⟩ := bad_qid_set qs qid
    (send_locked (slot qs qid.toNat) (stored a) a.lock_wait_ns) hb h3
  refine ⟨?_, k1, k2⟩
  simp only [send_op, exec, h]
  rfl

theorem exec_recv_op (qs : Registry) (qid mtype : Int) (b : recv_args)
    (pre post : List vipc_message) (m : vipc_message)
    (hb : bad_qid qs qid = false) (hl : (slot qs qid.toNat).messages = pre ++ m :: post)
    (hm : mtype = 0 ∨ m.mtype = mtype) (hpre : ∀ x ∈ pre, ¬ (mtype = 0 ∨ x.mtype = mtype)) :
    exec qs (recv_op qid mtype b) =
        some (Reply.received 0 (memcpy b.mtext m.mtext (min m.msize b.maxsize)) m.msize,
          qs.set qid.toNat (recv_locked (slot qs qid.toNat) m (pre ++ post) b.lock_wait_ns)) ∧
      bad_qid (qs.set qid.toNat
        (recv_locked (slot qs qid.toNat) m (pre ++ post) b.lock_wait_ns)) qid = false ∧
      slot (qs.set qid.toNat (recv_locked (slot qs qid.toNat) m (pre ++ post) b.lock_wait_ns))
        qid.toNat = recv_locked (slot qs qid.toNat) m (pre ++ post) b.lock_wait_ns := by
  have hsc : scan_unlink mtype (slot qs qid.toNat).messages = some (m, pre ++ post) := by
    rw [hl]; exact scan_unlink_split mtype pre post m hm hpre
  have h := receive_some qs qid mtype b.mtext b.maxsize b.actual_size b.lock_wait_ns
    m (pre ++ post) hb hsc
  obtain ⟨_, _, h3⟩ := bad_qid_false qs qid hb
  obtain ⟨k1, k2⟩ := bad_qid_set qs qid
    (recv_locked (slot qs qid.toNat) m (pre ++ post) b.lock_wait_ns) hb h3
  refine ⟨?_, k1, k2⟩
  simp only [recv_op, exec, h]

theorem exec_recv_op_empty (qs : Registry) (qid mtype : Int) (b : recv_args)
    (hb : bad_qid qs qid = false)
    (hl : ∀ x ∈ (slot qs qid.toNat).messages, ¬ (mtype = 0 ∨ x.mtype = mtype)) :
    exec qs (recv_op qid mtype b) = some (Reply.received (-ENOMSG) b.mtext b.actual_size, qs) := by
  have h := receive_none qs qid mtype b.mtext b.maxsize b.actual_size b.lock_wait_ns hb
    ((scan_unlink_none _ _).mpr hl)
  simp only [recv_op, exec, h]

theorem run_append (qs qs1 qs2 : Registry) (ops1 ops2 : List Op) (rs1 rs2 : List Reply)
    (h1 : run qs ops1 = some (rs1, qs1)) (h2 : run qs1 ops2 = some (rs2, qs2)) :
    run qs (ops1 ++ ops2) = some (rs1 ++ rs2, qs2) := by
  induction ops1 generalizing qs rs1 with
  | nil =>
    simp only [run, Option.some.injEq, Prod.mk.injEq] at h1
    rw [← h1.1, h1.2]; exact h2
  | cons op ops ih =>
    obtain ⟨r, qs3, rs3, he, hr, hrs⟩ := run_cons qs op ops rs1 qs1 h1
    rw [hrs]
    exact run_step _ _ _ _ _ _ _ he (ih qs3 rs3 hr)

theorem create_ok (qs qs1 : Registry) (qid : Int) (hlen : qs.length = MAX_QUEUES)
    (hc : vipc_create_queue qs = (qid, qs1)) (hq : 0 ≤ qid) :
    bad_qid qs1 qid = false ∧ slot qs1 qid.toNat = fresh_queue qid.toNat ∧
      qid < (MAX_QUEUES : Int) ∧ (slot qs qid.toNat).in_use = false ∧
      qs1 = qs.set qid.toNat (fresh_queue qid.toNat) := by
  unfold vipc_create_queue at hc
  rcases create_loop_cases qs 0 MAX_QUEUES with ⟨h1, _⟩ | ⟨j, _, h2, h3, _, h5⟩
  · rw [h1] at hc
    simp only [Prod.mk.injEq] at hc
    omega
  · rw [h5] at hc
    simp only [Prod.mk.injEq] at hc
    obtain ⟨e1, e2⟩ := hc
    have hj : qid.toNat = j := by rw [← e1]; simp
    rw [hj, ← e2]
    have hs := slot_set_same qs j (fresh_queue j) (by omega)
    refine ⟨?_, hs, by omega, h3, rfl⟩
    unfold bad_qid
    rw [hj, hs]
    simp only [fresh_queue, Bool.not_true, Bool.or_false, Bool.or_eq_false_iff,
      decide_eq_false_iff_not]
    exact ⟨by omega, by omega⟩

theorem run_sends (qs : Registry) (qid : Int) (l : List send_args)
    (hb : bad_qid qs qid = false) (hs : ∀ a ∈ l, a.mtext.length ≤ MAX_MSG_SIZE) :
    ∃ qs1, run qs (l.map (send_op qid)) = some (l.map (fun _ => Reply.sent 0), qs1) ∧
      bad_qid qs1 qid = false ∧
      (slot qs1 qid.toNat).messages = (slot qs qid.toNat).messages ++ l.map stored := by
  induction l generalizing qs with
  | nil => exact ⟨qs, rfl, hb, by simp⟩
  | cons a l ih =>
    obtain ⟨h1, h2, h3⟩ := exec_send_op qs qid a hb (hs a (List.mem_cons_self a l))
    obtain ⟨qs2, k1, k2, k3⟩ := ih _ h2 (fun x hx => hs x (List.mem_cons_of_mem a hx))
    refine ⟨qs2, run_step _ _ _ _ _ _ _ h1 k1, k2, ?_⟩
    rw [k3, h3]; simp [send_locked]

theorem run_recvs_fifo (qs : Registry) (qid : Int) (l : List (send_args × recv_args))
    (rest : List vipc_message) (hb : bad_qid qs qid = false)
    (hl : (slot qs qid.toNat).messages = l.map (fun p => stored p.1) ++ rest)
    (hs : ∀ p ∈ l, p.1.mtext.length ≤ p.2.maxsize) :
    ∃ qs1, run qs (l.map (fun p => recv_op qid 0 p.2)) =
        some (l.map (fun p => Reply.received 0
          (p.1.mtext ++ p.2.mtext.drop p.1.mtext.length) p.1.mtext.length), qs1) ∧
      bad_qid qs1 qid = false ∧ (slot qs1 qid.toNat).messages = rest := by
  induction l generalizing qs with
  | nil => exact ⟨qs, rfl, hb, by simpa using hl⟩
  | cons p l ih =>
    obtain ⟨h1, h2, h3⟩ := exec_recv_op qs qid 0 p.2 []
      (l.map (fun p => stored p.1) ++ rest) (stored p.1) hb (by simpa using hl)
      (Or.inl rfl) (by simp)
    obtain ⟨qs2, k1, k2, k3⟩ := ih _ h2 (by rw [h3]; simp [recv_locked])
      (fun x hx => hs x (List.mem_cons_of_mem p hx))
    refine ⟨qs2, ?_, k2, k3⟩
    have hp := hs p (List.mem_cons_self p l)
    have hcopy : memcpy p.2.mtext (stored p.1).mtext (min (stored p.1).msize p.2.maxsize)
        = p.1.mtext ++ p.2.mtext.drop p.1.mtext.length := by
      simp only [stored, memcpy, Nat.min_eq_left hp, List.take_length]
    rw [hcopy] at h1
    exact run_step _ _ _ _ _ _ _ h1 k1

theorem first_match (t : Int) (l : List vipc_message) (h : ∃ m ∈ l, t = 0 ∨ m.mtype = t) :
    ∃ pre m post, l = pre ++ m :: post ∧ (t = 0 ∨ m.mtype = t) ∧
      ∀ x ∈ pre, ¬ (t = 0 ∨ x.mtype = t) := by
  cases hs : scan_unlink t l with
  | none =>
    obtain ⟨m, hm, hp⟩ := h
    exact absurd hp ((scan_unlink_none t l).mp hs m hm)
  | some p =>
    obtain ⟨pre, post, e1, _, e3, e4⟩ := scan_unlink_some t l p.1 p.2 hs
    exact ⟨pre, p.1, post, e1, e3, e4⟩

theorem bad_qid_of_valid (qs : Registry) (qid : Int) (h0 : 0 ≤ qid)
    (h1 : qid < (MAX_QUEUES : Int)) (hu : (slot qs qid.toNat).in_use = true) :
    bad_qid qs qid = false := by
  unfold bad_qid
  rw [hu]
  simp only [Bool.not_true, Bool.or_false, Bool.or_eq_false_iff, decide_eq_false_iff_not]
  exact ⟨by omega, by omega⟩

/-! ## The in-use flags -/

theorem set_in_use (qs : Registry) (i : Nat) (q : vipc_queue)
    (h : q.in_use = (slot qs i).in_use) (j : Nat) :
    (slot (qs.set i q) j).in_use = (slot qs j).in_use := by
  by_cases hij : i = j
  · subst hij
    by_cases hlt : i < qs.length
    · rw [slot_set_same qs i q hlt, h]
    · rw [List.set_eq_of_length_le (Nat.le_of_not_lt hlt)]
  · rw [slot_set_other qs i j q hij]

theorem send_in_use (qs : Registry) (qid mtype : Int) (mtext : List Byte) (msize : Nat)
    (alloc_ok : Bool) (now : Int) (w : Nat) :
    (vipc_send_message qs qid mtype mtext msize alloc_ok now w).2.length = qs.length ∧
    ∀ j, (slot (vipc_send_message qs qid mtype mtext msize alloc_ok now w).2 j).in_use
      = (slot qs j).in_use := by
  cases hb : bad_qid qs qid with
  | true => rw [send_bad _ _ _ _ _ _ _ _ hb]; exact ⟨rfl, fun _ => rfl⟩
  | false =>
    by_cases hs : msize > MAX_MSG_SIZE
    · rw [send_too_large _ _ _ _ _ _ _ _ hb hs]; exact ⟨rfl, fun _ => rfl⟩
    · have hs1 : msize ≤ MAX_MSG_SIZE := Nat.le_of_not_lt hs
      cases alloc_ok with
      | false => rw [send_no_memory _ _ _ _ _ _ _ hb hs1]; exact ⟨rfl, fun _ => rfl⟩
      | true =>
        rw [send_ok _ _ _ _ _ _ _ hb hs1]
        exact ⟨List.length_set _ _ _,
          fun j => set_in_use qs qid.toNat (send_locked (slot qs qid.toNat) _ w) rfl j⟩

theorem receive_in_use (qs : Registry) (qid mtype : Int) (mtext : List Byte)
    (maxsize actual_size w : Nat) :
    (vipc_receive_message qs qid mtype mtext maxsize actual_size w).queues.length
      = qs.length ∧
    ∀ j, (slot (vipc_receive_message qs qid mtype mtext maxsize actual_size w).queues j).in_use
      = (slot qs j).in_use := by
  cases hb : bad_qid qs qid with
  | true => rw [receive_bad _ _ _ _ _ _ _ hb]; exact ⟨rfl, fun _ => rfl⟩
  | false =>
    cases hs : scan_unlink mtype (slot qs qid.toNat).messages with
    | none => rw [receive_none _ _ _ _ _ _ _ hb hs]; exact ⟨rfl, fun _ => rfl⟩
    | some p =>
      rw [receive_some _ _ _ _ _ _ _ p.1 p.2 hb hs]
      exact ⟨List.length_set _ _ _,
        fun j => set_in_use qs qid.toNat (recv_locked (slot qs qid.toNat) p.1 p.2 w) rfl j⟩

theorem bad_qid_congr (qs qs1 : Registry) (qid : Int)
    (h : (slot qs1 qid.toNat).in_use = (slot qs qid.toNat).in_use) :
    bad_qid qs1 qid = bad_qid qs qid := by
  unfold bad_qid; rw [h]

theorem create_frame (qs : Registry) (i : Nat) (h : (slot qs i).in_use = true) :
    slot (vipc_create_queue qs).2 i = slot qs i := by
  unfold vipc_create_queue
  rcases create_loop_cases qs 0 MAX_QUEUES with ⟨h1, _⟩ | ⟨j, _, _, h3, _, h5⟩
  · rw [h1]
  · rw [h5]
    apply slot_set_other
    intro hji
    rw [hji, h] at h3
    exact Bool.noConfusion h3

theorem toNat_ne (a b : Int) (ha : 0 ≤ a) (hb : 0 ≤ b) (h : a ≠ b) : a.toNat ≠ b.toNat := by
  omega

theorem exec_counters (qs qs1 : Registry) (qid : Int) (op : Op) (r : Reply)
    (hb : bad_qid qs qid = false) (he : exec qs op = some (r, qs1)) :
    bad_qid qs1 qid = false ∧
    (slot qs1 qid.toNat).total_operations =
      (match counted_wait qid op r with
        | some _ => add_u64 (slot qs qid.toNat).total_operations 1
        | none => (slot qs qid.toNat).total_operations) ∧
    (slot qs1 qid.toNat).total_lock_wait_time_ns =
      (match counted_wait qid op r with
        | some w => add_u64 (slot qs qid.toNat).total_lock_wait_time_ns w
        | none => (slot qs qid.toNat).total_lock_wait_time_ns) := by
  obtain ⟨hq0, _, hu⟩ := bad_qid_false qs qid hb
  cases op with
  | create =>
    simp only [exec, Option.some.injEq, Prod.mk.injEq] at he
    obtain ⟨e1, e2⟩ := he
    subst e1; subst e2
    have hf := create_frame qs qid.toNat hu
    exact ⟨by rw [bad_qid_congr qs _ qid (by rw [hf]), hb], by rw [hf]; rfl, by rw [hf]; rfl⟩
  | send q mtype mtext msize alloc_ok now w =>
    simp only [exec, Option.some.injEq, Prod.mk.injEq] at he
    obtain ⟨e1, e2⟩ := he
    subst e1; subst e2
    have hbq : bad_qid (vipc_send_message qs q mtype mtext msize alloc_ok now w).2 qid = false := by
      rw [bad_qid_congr qs _ qid ((send_in_use qs q mtype mtext msize alloc_ok now w).2 _), hb]
    refine ⟨hbq, ?_⟩
    cases hbq1 : bad_qid qs q with
    | true =>
      rw [send_bad _ _ _ _ _ _ _ _ hbq1]
      simp [counted_wait, EINVAL]
    | false =>
      by_cases hs : msize > MAX_MSG_SIZE
      · rw [send_too_large _ _ _ _ _ _ _ _ hbq1 hs]
        simp [counted_wait, EINVAL]
      · have hs1 : msize ≤ MAX_MSG_SIZE := Nat.le_of_not_lt hs
        cases alloc_ok with
        | false =>
          rw [send_no_memory _ _ _ _ _ _ _ hbq1 hs1]
          simp [counted_wait, ENOMEM]
        | true =>
          rw [send_ok _ _ _ _ _ _ _ hbq1 hs1]
          by_cases hqq : q = qid
          · subst hqq
            obtain ⟨_, k2⟩ := bad_qid_set qs q (send_locked (slot qs q.toNat)
              { mtype := mtype, msize := msize, timestamp := now
                mtext := mtext.take msize } w) hb hu
            simp only [counted_wait, and_self, if_true]
            rw [k2]
            exact ⟨rfl, rfl⟩
          · have hq1 := (bad_qid_false qs q hbq1).1
            simp only [counted_wait, hqq, false_and, if_false]
            rw [slot_set_other qs q.toNat qid.toNat _ (toNat_ne q qid hq1 hq0 hqq)]
            exact ⟨rfl, rfl⟩
  | receive q mtype mtext maxsize actual_size w =>
    simp only [exec, Option.some.injEq, Prod.mk.injEq] at he
    obtain ⟨e1, e2⟩ := he
    subst e1; subst e2
    have hbq : bad_qid (vipc_receive_message qs q mtype mtext maxsize actual_size w).queues qid
        = false := by
      rw [bad_qid_congr qs _ qid
        ((receive_in_use qs q mtype mtext maxsize actual_size w).2 _), hb]
    refine ⟨hbq, ?_⟩
    cases hbq1 : bad_qid qs q with
    | true =>
      rw [receive_bad _ _ _ _ _ _ _ hbq1]
      simp [counted_wait, EINVAL]
    | false =>
      cases hs : scan_unlink mtype (slot qs q.toNat).messages with
      | none =>
        rw [receive_none _ _ _ _ _ _ _ hbq1 hs]
        simp [counted_wait, ENOMSG]
      | some p =>
        rw [receive_some _ _ _ _ _ _ _ p.1 p.2 hbq1 hs]
        by_cases hqq : q = qid
        · subst hqq
          obtain ⟨_, k2⟩ := bad_qid_set qs q
            (recv_locked (slot qs q.toNat) p.1 p.2 w) hb hu
          simp only [counted_wait, and_self, if_true]
          rw [k2]
          exact ⟨rfl, rfl⟩
        · have hq1 := (bad_qid_false qs q hbq1).1
          simp only [counted_wait, hqq, false_and, if_false]
          rw [slot_set_other qs q.toNat qid.toNat _ (toNat_ne q qid hq1 hq0 hqq)]
          exact ⟨rfl, rfl⟩
  | stats q =>
    simp only [exec] at he
    cases hg : vipc_get_stats qs q with
    | none => rw [hg] at he; simp at he
    | some line =>
      rw [hg] at he
      simp only [Option.some.injEq, Prod.mk.injEq] at he
      obtain ⟨e1, e2⟩ := he
      subst e1; subst e2
      exact ⟨hb, rfl, rfl⟩

theorem waits_cons (qid : Int) (op : Op) (ops : List Op) (r : Reply) (rs : List Reply) :
    waits qid (op :: ops) (r :: rs) =
      (match counted_wait qid op r with
        | some w => w :: waits qid ops rs
        | none => waits qid ops rs) := rfl

theorem run_counters (ops : List Op) (qs qs2 : Registry) (qid : Int) (rs : List Reply)
    (hb : bad_qid qs qid = false) (hr : run qs ops = some (rs, qs2)) :
    bad_qid qs2 qid = false ∧
    (slot qs2 qid.toNat).total_operations % U64_MOD =
      ((slot qs qid.toNat).total_operations + (waits qid ops rs).length) % U64_MOD ∧
    (slot qs2 qid.toNat).total_lock_wait_time_ns % U64_MOD =
      ((slot qs qid.toNat).total_lock_wait_time_ns + (waits qid ops rs).sum) % U64_MOD ∧
    ((slot qs qid.toNat).total_operations < U64_MOD →
      (slot qs2 qid.toNat).total_operations < U64_MOD) ∧
    ((slot qs qid.toNat).total_lock_wait_time_ns < U64_MOD →
      (slot qs2 qid.toNat).total_lock_wait_time_ns < U64_MOD) := by
  induction ops generalizing qs rs with
  | nil =>
    simp only [run, Option.some.injEq, Prod.mk.injEq] at hr
    rw [← hr.1, ← hr.2]
    exact ⟨hb, by simp [waits], by simp [waits], id, id⟩
  | cons op ops ih =>
    obtain ⟨r, qs1, rs1, he, hr1, hrs⟩ := run_cons qs op ops rs qs2 hr
    subst hrs
    obtain ⟨c1, c2, c3⟩ := exec_counters qs qs1 qid op r hb he
    obtain ⟨i1, i2, i3, i4, i5⟩ := ih qs1 rs1 c1 hr1
    refine ⟨i1, ?_, ?_, ?_, ?_⟩
    · rw [i2, c2, waits_cons]
      cases counted_wait qid op r with
      | none => rfl
      | some w =>
        show (add_u64 _ 1 + _) % U64_MOD = (_ + ((waits qid ops rs1).length + 1)) % U64_MOD
        rw [Nat.add_comm (waits qid ops rs1).length 1]
        exact add_u64_shift _ 1 _
    · rw [i3, c3, waits_cons]
      cases counted_wait qid op r with
      | none => rfl
      | some w =>
        show (add_u64 _ w + _) % U64_MOD = (_ + (w :: waits qid ops rs1).sum) % U64_MOD
        rw [List.sum_cons]
        exact add_u64_shift _ w _
    · intro h
      apply i4
      rw [c2]
      cases counted_wait qid op r with
      | none => exact h
      | some w => exact Nat.mod_lt _ (by unfold U64_MOD; omega)
    · intro h
      apply i5
      rw [c3]
      cases counted_wait qid op r with
      | none => exact h
      | some w => exact Nat.mod_lt _ (by unfold U64_MOD; omega)

/-! ## Lock calls -/

theorem registry_under_queue_sections (qs : Registry) (is : List Nat) (held : List Lock)
    (rest : List LockEvent) :
    registry_under_queue held (slot_sections qs is ++ rest) = registry_under_queue held rest := by
  induction is with
  | nil => rfl
  | cons i is ih =>
    unfold slot_sections
    by_cases hu : (slot qs i).in_use = true
    · rw [if_pos hu]
      simp only [List.cons_append, registry_under_queue, List.erase_cons_head, List.append_eq]
      rw [ih]
      simp
    · rw [if_neg hu]
      exact ih

theorem queue_under_registry_sections_free (qs : Registry) (is : List Nat) (held : List Lock)
    (rest : List LockEvent) (hh : held.contains Lock.queues_lock = false) :
    queue_under_registry held (slot_sections qs is ++ rest) = queue_under_registry held rest := by
  induction is with
  | nil => rfl
  | cons i is ih =>
    unfold slot_sections
    by_cases hu : (slot qs i).in_use = true
    · rw [if_pos hu]
      simp only [List.cons_append, queue_under_registry, List.erase_cons_head, List.append_eq]
      rw [ih, hh]
      simp
    · rw [if_neg hu]
      exact ih

theorem queue_under_registry_sections_held (qs : Registry) (is : List Nat) (held : List Lock)
    (rest : List LockEvent) (hh : held.contains Lock.queues_lock = true) :
    queue_under_registry held (slot_sections qs is ++ rest) =
      (is.any (fun i => (slot qs i).in_use) || queue_under_registry held rest) := by
  induction is with
  | nil => simp [slot_sections]
  | cons i is ih =>
    unfold slot_sections
    by_cases hu : (slot qs i).in_use = true
    · rw [if_pos hu]
      simp only [List.cons_append, queue_under_registry, is_queue_lock, hh, Bool.and_self,
        Bool.true_or, List.any_cons, hu]
    · rw [if_neg hu]
      rw [ih]
      simp only [List.any_cons]
      rw [Bool.eq_false_iff.mpr hu, Bool.false_or]

/-! ## The drain of `vipc_exit` -/

theorem drain_list_nil (l : List vipc_message) : drain_list l = [] := by
  induction l with
  | nil => rfl
  | cons m l ih => exact ih

theorem exit_loop_slot (n i : Nat) (qs : Registry) (j : Nat) :
    (exit_loop i n qs).length = qs.length ∧
    slot (exit_loop i n qs) j =
      if i ≤ j ∧ j < i + n ∧ j < qs.length ∧ (slot qs j).in_use = true then drained (slot qs j)
      else slot qs j := by
  induction n generalizing i qs with
  | zero =>
    refine ⟨rfl, ?_⟩
    rw [if_neg (by omega)]
    rfl
  | succ n ih =>
    unfold exit_loop
    by_cases hu : (slot qs i).in_use = true
    · rw [if_pos hu]
      obtain ⟨hlt, _⟩ := slot_mem qs i hu
      obtain ⟨e1, e2⟩ := ih (i + 1) (qs.set i (drained (slot qs i)))
      rw [List.length_set] at e1 e2
      refine ⟨e1, ?_⟩
      rw [e2]
      by_cases hij : i = j
      · subst hij
        rw [if_neg (by omega), if_pos ⟨Nat.le_refl i, by omega, hlt, hu⟩]
        exact slot_set_same qs i _ hlt
      · rw [slot_set_other qs i j _ hij]
        by_cases hc : i + 1 ≤ j ∧ j < i + 1 + n ∧ j < qs.length ∧ (slot qs j).in_use = true
        · rw [if_pos hc, if_pos ⟨by omega, by omega, hc.2.2.1, hc.2.2.2⟩]
        · rw [if_neg hc, if_neg (fun h => hc ⟨by omega, by omega, h.2.2.1, h.2.2.2⟩)]
    · rw [if_neg hu]
      obtain ⟨e1, e2⟩ := ih (i + 1) qs
      refine ⟨e1, ?_⟩
      rw [e2]
      by_cases hij : i = j
      · subst hij
        rw [if_neg (by omega), if_neg (fun h => hu h.2.2.2)]
      · by_cases hc : i + 1 ≤ j ∧ j < i + 1 + n ∧ j < qs.length ∧ (slot qs j).in_use = true
        · rw [if_pos hc, if_pos ⟨by omega, by omega, hc.2.2.1, hc.2.2.2⟩]
        · rw [if_neg hc, if_neg (fun h => hc ⟨by omega, by omega, h.2.2.1, h.2.2.2⟩)]

theorem vipc_exit_slot (qs : Registry) (hlen : qs.length = MAX_QUEUES) (j : Nat) :
    slot (vipc_exit qs) j =
      if (slot qs j).in_use = true then drained (slot qs j) else slot qs j := by
  unfold vipc_exit
  rw [(exit_loop_slot MAX_QUEUES 0 qs j).2]
  by_cases hu : (slot qs j).in_use = true
  · obtain ⟨hlt, _⟩ := slot_mem qs j hu
    rw [if_pos ⟨Nat.zero_le j, by omega, hlt, hu⟩, if_pos hu]
  · rw [if_neg (fun h => hu h.2.2.2), if_neg hu]

/-! ## Bounded payloads -/

theorem msgs_bounded_set (qs : Registry) (i : Nat) (q : vipc_queue) (h : msgs_bounded qs)
    (hq : ∀ m ∈ q.messages, m.msize ≤ MAX_MSG_SIZE) : msgs_bounded (qs.set i q) := by
  intro x hx
  rcases List.mem_or_eq_of_mem_set hx with hx | hx
  · exact h x hx
  · rw [hx]; exact hq

theorem slot_bounded (qs : Registry) (i : Nat) (h : msgs_bounded qs) :
    ∀ m ∈ (slot qs i).messages, m.msize ≤ MAX_MSG_SIZE := by
  unfold slot
  by_cases hi : i < qs.length
  · rw [List.getD_eq_getElem qs zero_queue hi]
    exact h _ (List.getElem_mem hi)
  · rw [List.getD_eq_default qs zero_queue (Nat.le_of_not_lt hi)]
    intro m hm
    simp [zero_queue] at hm

theorem msgs_bounded_exec (qs qs1 : Registry) (op : Op) (r : Reply) (h : msgs_bounded qs)
    (he : exec qs op = some (r, qs1)) : msgs_bounded qs1 := by
  cases op with
  | create =>
    simp only [exec, Option.some.injEq, Prod.mk.injEq] at he
    rw [← he.2]
    unfold vipc_create_queue
    rcases create_loop_cases qs 0 MAX_QUEUES with ⟨h1, _⟩ | ⟨j, _, _, _, _, h5⟩
    · rw [h1]; exact h
    · rw [h5]
      exact msgs_bounded_set qs j _ h (by intro m hm; simp [fresh_queue] at hm)
  | send qid mtype mtext msize alloc_ok now w =>
    simp only [exec, Option.some.injEq, Prod.mk.injEq] at he
    rw [← he.2]
    cases hb : bad_qid qs qid with
    | true => rw [send_bad _ _ _ _ _ _ _ _ hb]; exact h
    | false =>
      by_cases hs : msize > MAX_MSG_SIZE
      · rw [send_too_large _ _ _ _ _ _ _ _ hb hs]; exact h
      · have hs1 : msize ≤ MAX_MSG_SIZE := Nat.le_of_not_lt hs
        cases alloc_ok with
        | false => rw [send_no_memory _ _ _ _ _ _ _ hb hs1]; exact h
        | true =>
          rw [send_ok _ _ _ _ _ _ _ hb hs1]
          apply msgs_bounded_set qs _ _ h
          intro m hm
          simp only [send_locked, List.mem_append, List.mem_singleton] at hm
          rcases hm with hm | hm
          · exact slot_bounded qs _ h m hm
          · rw [hm]; exact hs1
  | receive qid mtype mtext maxsize actual_size w =>
    simp only [exec, Option.some.injEq, Prod.mk.injEq] at he
    rw [← he.2]
    cases hb : bad_qid qs qid with
    | true => rw [receive_bad _ _ _ _ _ _ _ hb]; exact h
    | false =>
      cases hs : scan_unlink mtype (slot qs qid.toNat).messages with
      | none => rw [receive_none _ _ _ _ _ _ _ hb hs]; exact h
      | some p =>
        rw [receive_some _ _ _ _ _ _ _ p.1 p.2 hb hs]
        obtain ⟨pre, post, e1, e2, _, _⟩ := scan_unlink_some _ _ _ _ hs
        apply msgs_bounded_set qs _ _ h
        intro m hm
        apply slot_bounded qs qid.toNat h m
        rw [e1]
        simp only [recv_locked, e2, List.mem_append, List.mem_cons] at hm ⊢
        tauto
  | stats qid =>
    simp only [exec] at he
    cases hg : vipc_get_stats qs qid with
    | none => rw [hg] at he; simp at he
    | some line =>
      rw [hg] at he
      simp only [Option.some.injEq, Prod.mk.injEq] at he
      rw [← he.2]; exact h

theorem msgs_bounded_run (ops : List Op) (qs qs2 : Registry) (rs : List Reply)
    (h : msgs_bounded qs) (hr : run qs ops = some (rs, qs2)) : msgs_bounded qs2 := by
  induction ops generalizing qs rs with
  | nil =>
    simp only [run, Option.some.injEq, Prod.mk.injEq] at hr
    rw [← hr.2]; exact h
  | cons op ops ih =>
    obtain ⟨r, qs1, rs1, he, hr1, _⟩ := run_cons qs op ops rs qs2 hr
    exact ih qs1 rs1 (msgs_bounded_exec qs qs1 op r h he) hr1

theorem msgs_bounded_init : msgs_bounded vipc_init := by
  intro q hq m hm
  simp only [vipc_init, List.mem_replicate] at hq
  rw [hq.2] at hm
  simp [zero_queue] at hm

/-! ## A send followed by the receive that takes the message back -/

theorem round_trip_count (c : Int) (h0 : INT_MIN ≤ c) (h1 : c ≤ INT_MAX) :
    wrap_int (wrap_int (c + 1) - 1) = c := by
  unfold wrap_int
  unfold INT_MIN at h0
  unfold INT_MAX at h1
  omega

theorem round_trip_size (ts n : Nat) (h : ts < U64_MOD) : sub_u64 (add_u64 ts n) n = ts := by
  unfold sub_u64 add_u64
  unfold U64_MOD at *
  omega

theorem round_trip_ops (t : Nat) : add_u64 (add_u64 t 1) 1 = (t + 2) % U64_MOD := by
  unfold add_u64 U64_MOD
  omega

theorem send_then_receive (qs : Registry) (qid f : Int) (a : send_args) (b : recv_args)
    (hb : bad_qid qs qid = false) (hs : a.mtext.length ≤ MAX_MSG_SIZE)
    (hmax : a.mtext.length ≤ b.maxsize)
    (hf : (f = a.mtype ∧ a.mtype ≠ 0 ∧ ∀ x ∈ (slot qs qid.toNat).messages, x.mtype ≠ a.mtype) ∨
      (f = 0 ∧ (slot qs qid.toNat).messages = [])) :
    ∃ qs2, run qs [send_op qid a, recv_op qid f b] =
        some ([Reply.sent 0, Reply.received 0
          (a.mtext ++ b.mtext.drop a.mtext.length) a.mtext.length], qs2) ∧
      bad_qid qs2 qid = false ∧
      slot qs2 qid.toNat = recv_locked
        (send_locked (slot qs qid.toNat) (stored a) a.lock_wait_ns) (stored a)
        (slot qs qid.toNat).messages b.lock_wait_ns ∧
      (∀ j, j ≠ qid.toNat → slot qs2 j = slot qs j) ∧
      qs2 = (qs.set qid.toNat (send_locked (slot qs qid.toNat) (stored a)
          a.lock_wait_ns)).set qid.toNat (recv_locked
        (send_locked (slot qs qid.toNat) (stored a) a.lock_wait_ns) (stored a)
        (slot qs qid.toNat).messages b.lock_wait_ns) := by
  obtain ⟨s1, b1, l1⟩ := exec_send_op qs qid a hb hs
  have hm : f = 0 ∨ (stored a).mtype = f := by
    rcases hf with ⟨h1, _, _⟩ | ⟨h1, _⟩
    · exact Or.inr h1.symm
    · exact Or.inl h1
  have hpre : ∀ x ∈ (slot qs qid.toNat).messages, ¬ (f = 0 ∨ x.mtype = f) := by
    rcases hf with ⟨h1, h2, h3⟩ | ⟨_, h2⟩
    · intro x hx hor
      rcases hor with hor | hor
      · exact h2 (by rw [← h1, hor])
      · exact h3 x hx (by rw [hor, h1])
    · intro x hx
      rw [h2] at hx
      simp at hx
  obtain ⟨t1, c1, m1⟩ := exec_recv_op _ qid f b (slot qs qid.toNat).messages [] (stored a) b1
    (by rw [l1]; rfl) hm hpre
  have hcopy : memcpy b.mtext (stored a).mtext (min (stored a).msize b.maxsize)
      = a.mtext ++ b.mtext.drop a.mtext.length := by
    simp only [stored, memcpy, Nat.min_eq_left hmax, List.take_length]
  rw [hcopy, l1, List.append_nil] at t1
  rw [l1, List.append_nil] at c1 m1
  refine ⟨_, run_step _ _ _ _ _ _ _ s1 (run_step _ _ _ _ _ _ _ t1 rfl), c1, m1, ?_, rfl⟩
  intro j hj
  rw [slot_set_other _ qid.toNat j _ (Ne.symm hj), slot_set_other _ qid.toNat j _ (Ne.symm hj)]

theorem run_round_trips (n : Nat) (q : vipc_queue) (hu : q.in_use = true)
    (hm : q.messages = []) :
    ∃ rs q1, run [q] (round_trips n) = some (rs, [q1]) ∧ q1.in_use = true ∧
      q1.messages = [] ∧
      q1.total_operations % U64_MOD = (q.total_operations + 2 * n) % U64_MOD ∧
      (q.total_operations < U64_MOD → q1.total_operations < U64_MOD) := by
  induction n generalizing q with
  | zero => exact ⟨[], q, rfl, hu, hm, rfl, id⟩
  | succ n ih =>
    have hb : bad_qid [q] 0 = false := by simp [bad_qid, slot, MAX_QUEUES, hu]
    obtain ⟨qs2, h1, _, _, _, h5⟩ := send_then_receive [q] 0 1
      { mtype := 1, mtext := [], now := 0, lock_wait_ns := 0 }
      { mtext := [], maxsize := 0, actual_size := 0, lock_wait_ns := 0 } hb
      (by simp) (by simp) (Or.inl ⟨rfl, by decide, by
        intro x hx
        have : (slot [q] (0 : Int).toNat).messages = [] := hm
        rw [this] at hx
        simp at hx⟩)
    have hq2 : ∃ q2, qs2 = [q2] ∧ q2.in_use = true ∧ q2.messages = [] ∧
        q2.total_operations = add_u64 (add_u64 q.total_operations 1) 1 := by
      refine ⟨_, h5, hu, hm, rfl⟩
    obtain ⟨q2, e1, e2, e3, e4⟩ := hq2
    rw [e1] at h1
    obtain ⟨rs, q1, k1, k2, k3, k4, k5⟩ := ih q2 e2 e3
    refine ⟨_, q1, run_append _ _ _ _ _ _ _ h1 k1, k2, k3, ?_, ?_⟩
    · rw [k4, e4, round_trip_ops]
      unfold U64_MOD
      omega
    · intro _
      apply k5
      rw [e4, round_trip_ops]
      exact Nat.mod_lt _ (by unfold U64_MOD; omega)

/-! ## The report -/

theorem avg_lock_wait_eq (q : vipc_queue) :
    avg_lock_wait q = some (if q.total_operations = 0 then 0
      else q.total_lock_wait_time_ns / q.total_operations) := by
  unfold avg_lock_wait div_u64
  by_cases hz : q.total_operations = 0
  · rw [if_neg (by omega), if_pos hz]
  · rw [if_pos (by omega), if_neg hz, if_neg hz]

theorem get_stats_eq (qs : Registry) (qid : Int) (h0 : 0 ≤ qid) (h1 : qid < (MAX_QUEUES : Int)) :
    vipc_get_stats qs qid = some
      { qid := qid
        ops := (slot qs qid.toNat).total_operations
        avg_lock_wait_ns :=
          if (slot qs qid.toNat).total_operations = 0 then 0
          else (slot qs qid.toNat).total_lock_wait_time_ns
            / (slot qs qid.toNat).total_operations } := by
  unfold vipc_get_stats
  rw [if_pos ⟨h0, h1⟩, avg_lock_wait_eq]

theorem get_stats_some_iff (qs : Registry) (qid : Int) :
    vipc_get_stats qs qid ≠ none ↔ (0 ≤ qid ∧ qid < (MAX_QUEUES : Int)) := by
  constructor
  · intro h
    by_contra hn
    apply h
    unfold vipc_get_stats
    rw [if_neg hn]
  · intro h
    rw [get_stats_eq qs qid h.1 h.2]
    simp

theorem proc_show_blocks_eq (qs : Registry) (is : List Nat) :
    ∃ bs, proc_show_blocks qs is = some bs ∧
      ∀ i ∈ is, (slot qs i).in_use = true →
        ∃ b ∈ bs, b.queue_id = i ∧ b.messages = (slot qs i).msg_count ∧
          b.total_size = (slot qs i).total_size ∧
          b.total_operations = (slot qs i).total_operations ∧
          b.avg_lock_wait = if (slot qs i).total_operations = 0 then 0
            else (slot qs i).total_lock_wait_time_ns / (slot qs i).total_operations := by
  induction is with
  | nil => exact ⟨[], rfl, by simp⟩
  | cons j is ih =>
    obtain ⟨bs, e1, e2⟩ := ih
    unfold proc_show_blocks
    by_cases hu : (slot qs j).in_use = true
    · rw [if_pos hu, avg_lock_wait_eq, e1]
      refine ⟨_, rfl, ?_⟩
      intro i hi hiu
      rcases List.mem_cons.mp hi with hi | hi
      · subst hi
        exact ⟨_, List.mem_cons_self _ _, rfl, rfl, rfl, rfl, rfl⟩
      · obtain ⟨b, hb, hrest⟩ := e2 i hi hiu
        exact ⟨b, List.mem_cons_of_mem _ hb, hrest⟩
    · rw [if_neg hu]
      refine ⟨bs, e1, ?_⟩
      intro i hi hiu
      rcases List.mem_cons.mp hi with hi | hi
      · subst hi
        exact absurd hiu hu
      · exact e2 i hi hiu

/-! ## Exhaustion on runs with a result -/

/-- C1, the claim as stated fails: after one create and `2^31` successful sends
of an empty payload, the queue holds `2^31` messages while its `int msg_count`
has wrapped and differs from that number. -/
theorem C1_counterexample :
    ∃ rs qs q,
      run vipc_init (Op.create :: List.replicate 2147483648 (Op.send 0 1 [] 0 true 0 0))
        = some (rs, qs) ∧
      q ∈ qs ∧ q.in_use = true ∧ q.msg_count ≠ (q.messages.length : Int) := by
  obtain ⟨rs, q1, h1, h2, h3, h4⟩ :=
    run_empty_sends 2147483648 (fresh_queue 0) 0 rfl (by decide)
  have he : exec vipc_init Op.create = some (Reply.created 0, [fresh_queue 0]) := by decide
  refine ⟨Reply.created 0 :: rs, [q1], q1, run_step _ _ _ _ _ _ _ he h1,
    List.mem_singleton.mpr rfl, h2, ?_⟩
  rw [h4, h3]
  have hl : (fresh_queue 0).messages.length = 0 := rfl
  rw [hl]
  unfold wrap_int
  omega

/-- C1 (amended): in every registry reached from the initial one by a sequence
of create, send, receive and stats calls, every queue in use has `msg_count`
equal to the length of its list reduced to an `int` and `total_size` equal to
the sum of the `msize` of its messages reduced modulo `2^64`, each `msize`
being at most `MAX_MSG_SIZE`; as long as the list holds at most `INT_MAX`
messages, `msg_count` is the number of messages and `total_size` is the sum
of their `msize`. -/
theorem C1_counters_match_list (ops : List Op) (rs : List Reply) (qs : Registry)
    (hr : run vipc_init ops = some (rs, qs)) (q : vipc_queue) (hq : q ∈ qs)
    (hu : q.in_use = true) :
    queue_ok q ∧
    ((q.messages.length : Int) ≤ INT_MAX →
      q.msg_count = (q.messages.length : Int) ∧ q.total_size = sum_msize q.messages) := by
  have hok := reg_ok_run ops vipc_init qs rs reg_ok_init hr q hq hu
  refine ⟨hok, fun hlen => ?_⟩
  obtain ⟨k1, k2, k3⟩ := hok
  refine ⟨by rw [k1]; exact wrap_int_small _ hlen, ?_⟩
  rw [k2]
  apply Nat.mod_eq_of_lt
  have hle := sum_msize_le q.messages k3
  unfold INT_MAX at hlen
  unfold MAX_MSG_SIZE at hle
  unfold U64_MOD
  have : q.messages.length ≤ 2147483647 := by omega
  nlinarith

/-- C1, an instance: the registry after `sample_ops`. -/
theorem C1_counters_match_list_witness :
    run vipc_init sample_ops = some (sample_replies, [sample_queue]) ∧
    sample_queue.in_use = true ∧
    (queue_ok sample_queue ∧
      ((sample_queue.messages.length : Int) ≤ INT_MAX →
        sample_queue.msg_count = (sample_queue.messages.length : Int) ∧
        sample_queue.total_size = sum_msize sample_queue.messages)) :=
  ⟨by decide, rfl,
    C1_counters_match_list sample_ops sample_replies [sample_queue] (by decide)
      sample_queue (List.mem_singleton.mpr rfl) rfl⟩

/-- C2: FIFO law. On a queue just returned by `vipc_create_queue`, sending the
messages of `l` in order (payloads of at most `MAX_MSG_SIZE` bytes, any types)
and then receiving `|l|` times with `mtype == 0` and a `maxsize` of at least
the payload size succeeds every time and hands back the payloads in the order
sent, each with its true size; one more such receive returns `-ENOMSG` and
leaves the caller's buffer and `*actual_size` as they were. -/
theorem C2_fifo_law (qs qs1 : Registry) (qid : Int) (hlen : qs.length = MAX_QUEUES)
    (hc : vipc_create_queue qs = (qid, qs1)) (hq : 0 ≤ qid)
    (l : List (send_args × recv_args))
    (hs : ∀ p ∈ l, p.1.mtext.length ≤ MAX_MSG_SIZE ∧ p.1.mtext.length ≤ p.2.maxsize)
    (last : recv_args) :
    ∃ qs2, run qs1 (l.map (fun p => send_op qid p.1) ++ l.map (fun p => recv_op qid 0 p.2)
          ++ [recv_op qid 0 last]) =
      some (l.map (fun _ => Reply.sent 0)
          ++ l.map (fun p => Reply.received 0
              (p.1.mtext ++ p.2.mtext.drop p.1.mtext.length) p.1.mtext.length)
          ++ [Reply.received (-ENOMSG) last.mtext last.actual_size], qs2) := by
  obtain ⟨hb, hslot, _, _, _⟩ := create_ok qs qs1 qid hlen hc hq
  obtain ⟨qs2, h1, h2, h3⟩ := run_sends qs1 qid (l.map Prod.fst) hb (by
    intro a ha
    obtain ⟨p, hp, rfl⟩ := List.mem_map.mp ha
    exact (hs p hp).1)
  rw [List.map_map, List.map_map] at h1
  rw [hslot, List.map_map] at h3
  obtain ⟨qs3, k1, k2, k3⟩ := run_recvs_fifo qs2 qid l [] h2
    (by rw [h3]; simp [fresh_queue, Function.comp_def]) (fun p hp => (hs p hp).2)
  have hlast := exec_recv_op_empty qs3 qid 0 last k2 (by rw [k3]; simp)
  refine ⟨qs3, ?_⟩
  refine run_append _ _ _ _ _ _ _ (run_append _ _ _ _ _ _ _ h1 k1) ?_
  exact run_step _ _ _ _ _ _ _ hlast rfl

/-- C2, an instance: two messages of types 7 and 2 on the first queue created. -/
theorem C2_fifo_law_witness :
    ∃ qs2, run [fresh_queue 0]
        (sample_pairs.map (fun p => send_op 0 p.1) ++ sample_pairs.map (fun p => recv_op 0 0 p.2)
          ++ [recv_op 0 0 sample_recv]) =
      some (sample_pairs.map (fun _ => Reply.sent 0)
          ++ sample_pairs.map (fun p => Reply.received 0
              (p.1.mtext ++ p.2.mtext.drop p.1.mtext.length) p.1.mtext.length)
          ++ [Reply.received (-ENOMSG) sample_recv.mtext sample_recv.actual_size], qs2) :=
  C2_fifo_law vipc_init [fresh_queue 0] 0 rfl (by decide) (by decide) sample_pairs
    (by decide) sample_recv

/-- C3: filter law. On a queue in use, a receive with a nonzero `mtype` that
some queued message carries returns 0, copies the payload of the first message
in list order whose type is `mtype` and reports its size, and leaves the list
as it was with that one record removed (records before it, none of which has
the type, and records after it keep their order); no other slot changes. In
particular, on a queue just created, after sending types `A`, `B`, `A` with
`A ≠ B` and `B ≠ 0`, a receive filtered on `B` returns the `B` message and two
receives with filter 0 return the first `A` message and then the second. -/
theorem C3_filter_law :
    (∀ (qs : Registry) (qid mtype : Int) (buf : List Byte) (maxsize actual_size w : Nat),
      0 ≤ qid → qid < (MAX_QUEUES : Int) → (slot qs qid.toNat).in_use = true → mtype ≠ 0 →
      (∃ m ∈ (slot qs qid.toNat).messages, m.mtype = mtype) →
      ∃ pre m post,
      (slot qs qid.toNat).messages = pre ++ m :: post ∧ m.mtype = mtype ∧
      (∀ x ∈ pre, x.mtype ≠ mtype) ∧
      (vipc_receive_message qs qid mtype buf maxsize actual_size w).ret = 0 ∧
      (vipc_receive_message qs qid mtype buf maxsize actual_size w).mtext
        = memcpy buf m.mtext (min m.msize maxsize) ∧
      (vipc_receive_message qs qid mtype buf maxsize actual_size w).actual_size = m.msize ∧
      (slot (vipc_receive_message qs qid mtype buf maxsize actual_size w).queues
        qid.toNat).messages = pre ++ post ∧
      ∀ j, j ≠ qid.toNat →
        slot (vipc_receive_message qs qid mtype buf maxsize actual_size w).queues j
          = slot qs j) ∧
    (∀ (qs0 qs1 : Registry) (q0 : Int) (a1 b a2 : send_args) (r1 r2 r3 : recv_args),
      qs0.length = MAX_QUEUES → vipc_create_queue qs0 = (q0, qs1) → 0 ≤ q0 →
      a1.mtype = a2.mtype → a1.mtype ≠ b.mtype → b.mtype ≠ 0 →
      a1.mtext.length ≤ MAX_MSG_SIZE → b.mtext.length ≤ MAX_MSG_SIZE →
      a2.mtext.length ≤ MAX_MSG_SIZE →
      ∃ qs2, run qs1 [send_op q0 a1, send_op q0 b, send_op q0 a2,
          recv_op q0 b.mtype r1, recv_op q0 0 r2, recv_op q0 0 r3] =
        some ([Reply.sent 0, Reply.sent 0, Reply.sent 0,
          Reply.received 0 (memcpy r1.mtext b.mtext (min b.mtext.length r1.maxsize))
            b.mtext.length,
          Reply.received 0 (memcpy r2.mtext a1.mtext (min a1.mtext.length r2.maxsize))
            a1.mtext.length,
          Reply.received 0 (memcpy r3.mtext a2.mtext (min a2.mtext.length r3.maxsize))
            a2.mtext.length], qs2)) := by
  constructor
  · intro qs qid mtype buf maxsize actual_size w h0 h1 hu ht hex
    have hb := bad_qid_of_valid qs qid h0 h1 hu
    obtain ⟨pre, m, post, e1, e2, e3⟩ := first_match mtype (slot qs qid.toNat).messages (by
      obtain ⟨m, hm, hp⟩ := hex
      exact ⟨m, hm, Or.inr hp⟩)
    have e2a : m.mtype = mtype := by
      rcases e2 with e2 | e2
      · exact absurd e2 ht
      · exact e2
    have hsc := scan_unlink_split mtype pre post m e2 e3
    rw [← e1] at hsc
    have hr := receive_some qs qid mtype buf maxsize actual_size w m (pre ++ post) hb hsc
    obtain ⟨_, k2⟩ := bad_qid_set qs qid
      (recv_locked (slot qs qid.toNat) m (pre ++ post) w) hb hu
    refine ⟨pre, m, post, e1, e2a, fun x hx hxt => e3 x hx (Or.inr hxt), ?_, ?_, ?_, ?_, ?_⟩
    · rw [hr]
    · rw [hr]
    · rw [hr]
    · rw [hr]; simp only []; rw [k2]; rfl
    · intro j hj
      rw [hr]
      exact slot_set_other qs qid.toNat j _ (Ne.symm hj)
  · intro qs0 qs1 q0 a1 b a2 r1 r2 r3 hlen hc hq hA hAB hB hs1 hs2 hs3
    obtain ⟨hb, hslot, _, _, _⟩ := create_ok qs0 qs1 q0 hlen hc hq
    obtain ⟨s1, b1, l1⟩ := exec_send_op qs1 q0 a1 hb hs1
    obtain ⟨s2, b2, l2⟩ := exec_send_op _ q0 b b1 hs2
    obtain ⟨s3, b3, l3⟩ := exec_send_op _ q0 a2 b2 hs3
    obtain ⟨t1, c1, m1⟩ := exec_recv_op _ q0 b.mtype r1 [stored a1] [stored a2] (stored b)
      b3 (by rw [l3, l2, l1, hslot]; simp [send_locked, fresh_queue]) (Or.inr rfl) (by
        intro x hx
        rw [List.mem_singleton.mp hx]
        simp only [stored, not_or]
        exact ⟨fun h => hB h, hAB⟩)
    obtain ⟨t2, c2, m2⟩ := exec_recv_op _ q0 0 r2 [] [stored a2] (stored a1)
      c1 (by rw [m1]; rfl) (Or.inl rfl) (by simp)
    obtain ⟨t3, _, _⟩ := exec_recv_op _ q0 0 r3 [] [] (stored a2)
      c2 (by rw [m2]; rfl) (Or.inl rfl) (by simp)
    exact ⟨_, run_step _ _ _ _ _ _ _ s1 (run_step _ _ _ _ _ _ _ s2 (run_step _ _ _ _ _ _ _ s3
      (run_step _ _ _ _ _ _ _ t1 (run_step _ _ _ _ _ _ _ t2
        (run_step _ _ _ _ _ _ _ t3 rfl)))))⟩

/-- C3, an instance: a queue holding types 4, 9, 4, filtered on 9. -/
theorem C3_filter_law_witness :
    (∃ pre m post,
      (slot sample_aba (0 : Int).toNat).messages = pre ++ m :: post ∧ m.mtype = 9 ∧
      (∀ x ∈ pre, x.mtype ≠ 9) ∧
      (vipc_receive_message sample_aba 0 9 [0, 0] 2 0 5).ret = 0 ∧
      (vipc_receive_message sample_aba 0 9 [0, 0] 2 0 5).mtext
        = memcpy [0, 0] m.mtext (min m.msize 2) ∧
      (vipc_receive_message sample_aba 0 9 [0, 0] 2 0 5).actual_size = m.msize ∧
      (slot (vipc_receive_message sample_aba 0 9 [0, 0] 2 0 5).queues
        (0 : Int).toNat).messages = pre ++ post ∧
      ∀ j, j ≠ (0 : Int).toNat →
        slot (vipc_receive_message sample_aba 0 9 [0, 0] 2 0 5).queues j
          = slot sample_aba j) ∧
    (vipc_receive_message sample_aba 0 9 [0, 0] 2 0 5).mtext = [2, 2] ∧
    (slot (vipc_receive_message sample_aba 0 9 [0, 0] 2 0 5).queues 0).messages
      = [stored msg_a1, stored msg_a2] ∧
    (∃ qs2, run [fresh_queue 0] [send_op 0 msg_a1, send_op 0 msg_b, send_op 0 msg_a2,
        recv_op 0 msg_b.mtype sample_recv, recv_op 0 0 sample_recv, recv_op 0 0 sample_recv] =
      some ([Reply.sent 0, Reply.sent 0, Reply.sent 0,
        Reply.received 0 (memcpy sample_recv.mtext msg_b.mtext
          (min msg_b.mtext.length sample_recv.maxsize)) msg_b.mtext.length,
        Reply.received 0 (memcpy sample_recv.mtext msg_a1.mtext
          (min msg_a1.mtext.length sample_recv.maxsize)) msg_a1.mtext.length,
        Reply.received 0 (memcpy sample_recv.mtext msg_a2.mtext
          (min msg_a2.mtext.length sample_recv.maxsize)) msg_a2.mtext.length], qs2)) :=
  ⟨C3_filter_law.1 sample_aba 0 9 [0, 0] 2 0 5 (by decide) (by decide) (by decide) (by decide)
      ⟨stored msg_b, by decide, by decide⟩, by decide, by decide,
    C3_filter_law.2 vipc_init [fresh_queue 0] 0 msg_a1 msg_b msg_a2
      sample_recv sample_recv sample_recv rfl (by decide) (by decide) (by decide) (by decide)
      (by decide) (by decide) (by decide) (by decide)⟩

/-- C4: truncation law. When a receive matches the message `m` (the first
record of the list that the filter accepts), whatever `maxsize` is, it returns
0, sets `*actual_size` to `m.msize`, and leaves in the caller's buffer the
first `min(m.msize, maxsize)` bytes of the payload followed by the buffer's old
content from that offset on: exactly `min(m.msize, maxsize)` bytes are
written when the record holds its `msize` bytes and the buffer has room for
them. In particular, on a queue in use with an empty list, sending a payload
of `S` bytes and receiving it with `maxsize = S / 2` reports
`actual_size = S` with the first `S / 2` bytes copied. -/
theorem C4_truncation_law :
    (∀ (qs : Registry) (qid mtype : Int) (buf : List Byte) (maxsize actual_size w : Nat)
      (pre post : List vipc_message) (m : vipc_message),
      0 ≤ qid → qid < (MAX_QUEUES : Int) → (slot qs qid.toNat).in_use = true →
      (slot qs qid.toNat).messages = pre ++ m :: post →
      (mtype = 0 ∨ m.mtype = mtype) → (∀ x ∈ pre, ¬ (mtype = 0 ∨ x.mtype = mtype)) →
      (vipc_receive_message qs qid mtype buf maxsize actual_size w).ret = 0 ∧
      (vipc_receive_message qs qid mtype buf maxsize actual_size w).actual_size = m.msize ∧
      (vipc_receive_message qs qid mtype buf maxsize actual_size w).mtext
        = m.mtext.take (min m.msize maxsize) ++ buf.drop (min m.msize maxsize) ∧
      (m.mtext.length = m.msize → min m.msize maxsize ≤ buf.length →
        (vipc_receive_message qs qid mtype buf maxsize actual_size w).mtext.length
          = buf.length ∧
        ((vipc_receive_message qs qid mtype buf maxsize actual_size w).mtext.take
          (min m.msize maxsize)).length = min m.msize maxsize ∧
        (vipc_receive_message qs qid mtype buf maxsize actual_size w).mtext.take
          (min m.msize maxsize) = m.mtext.take (min m.msize maxsize) ∧
        (vipc_receive_message qs qid mtype buf maxsize actual_size w).mtext.drop
          (min m.msize maxsize) = buf.drop (min m.msize maxsize))) ∧
    (∀ (qs0 : Registry) (q0 t : Int) (a : send_args) (b : recv_args),
      0 ≤ q0 → q0 < (MAX_QUEUES : Int) → (slot qs0 q0.toNat).in_use = true →
      (slot qs0 q0.toNat).messages = [] → a.mtext.length ≤ MAX_MSG_SIZE →
      (t = 0 ∨ a.mtype = t) → b.maxsize = a.mtext.length / 2 →
      ∃ qs2, run qs0 [send_op q0 a, recv_op q0 t b] =
        some ([Reply.sent 0,
          Reply.received 0 (a.mtext.take (a.mtext.length / 2)
            ++ b.mtext.drop (a.mtext.length / 2)) a.mtext.length], qs2)) := by
  constructor
  · intro qs qid mtype buf maxsize actual_size w pre post m h0 h1 hu hl hm hpre
    have hb := bad_qid_of_valid qs qid h0 h1 hu
    have hsc := scan_unlink_split mtype pre post m hm hpre
    rw [← hl] at hsc
    have hr := receive_some qs qid mtype buf maxsize actual_size w m (pre ++ post) hb hsc
    rw [hr]
    refine ⟨rfl, rfl, rfl, fun hlen hroom => ?_⟩
    have hk : (List.take (min m.msize maxsize) m.mtext).length = min m.msize maxsize := by
      rw [List.length_take]; omega
    simp only [memcpy]
    refine ⟨?_, ?_, ?_, ?_⟩
    · rw [List.length_append, List.length_drop, hk]; omega
    · rw [List.length_take, List.length_append, List.length_drop, hk]; omega
    · rw [List.take_append_of_le_length (by omega), List.take_take]; simp
    · rw [List.drop_append_of_le_length (by omega), List.drop_eq_nil_of_le (by omega)]; rfl
  · intro qs0 q0 t a b k0 k1 ku hempty hsz hty hmax
    have hb := bad_qid_of_valid qs0 q0 k0 k1 ku
    obtain ⟨s1, b1, l1⟩ := exec_send_op qs0 q0 a hb hsz
    obtain ⟨t1, _, _⟩ := exec_recv_op _ q0 t b [] [] (stored a) b1
      (by rw [l1]; simp [send_locked, hempty]) hty (by simp)
    have hcopy : memcpy b.mtext (stored a).mtext (min (stored a).msize b.maxsize)
        = a.mtext.take (a.mtext.length / 2) ++ b.mtext.drop (a.mtext.length / 2) := by
      simp only [stored, memcpy, hmax]
      rw [Nat.min_eq_right (Nat.div_le_self _ _)]
    rw [hcopy] at t1
    exact ⟨_, run_step _ _ _ _ _ _ _ s1 (run_step _ _ _ _ _ _ _ t1 rfl)⟩

/-- C4, an instance: a six-byte payload received with `maxsize = 3` into a
four-byte buffer. -/
theorem C4_truncation_law_witness :
    (vipc_receive_message sample_aba 0 9 [0, 0, 0, 0] 1 0 5).actual_size = 3 ∧
    (vipc_receive_message sample_aba 0 9 [0, 0, 0, 0] 1 0 5).mtext = [2, 0, 0, 0] ∧
    (∃ qs2, run [fresh_queue 0]
        [send_op 0 msg_six, recv_op 0 0 { sample_recv with maxsize := 3 }] =
      some ([Reply.sent 0, Reply.received 0 [10, 11, 12, 9] 6], qs2)) :=
  ⟨by
      rw [(C4_truncation_law.1 sample_aba 0 9 [0, 0, 0, 0] 1 0 5 [stored msg_a1]
        [stored msg_a2] (stored msg_b) (by decide) (by decide) (by decide) (by decide)
        (by decide) (by decide)).2.1]
      decide,
    by decide,
    C4_truncation_law.2 [fresh_queue 0] 0 0 msg_six { sample_recv with maxsize := 3 }
      (by decide) (by decide) (by decide) (by decide) (by decide) (by decide) (by decide)⟩

/-- C5: size boundary of send. On a queue in use, `vipc_send_message` returns
`-EINVAL` exactly when `msize > MAX_MSG_SIZE`, whether or not the allocation
would succeed; with `msize = MAX_MSG_SIZE` (4096) and a successful allocation
it returns 0 and the message is the new last record of the list; with
`msize = MAX_MSG_SIZE + 1` it returns `-EINVAL` and the registry is unchanged. -/
theorem C5_size_boundary (qs : Registry) (qid mtype : Int) (mtext : List Byte) (msize : Nat)
    (alloc_ok : Bool) (now : Int) (w : Nat) (h0 : 0 ≤ qid) (h1 : qid < (MAX_QUEUES : Int))
    (hu : (slot qs qid.toNat).in_use = true) :
    ((vipc_send_message qs qid mtype mtext msize alloc_ok now w).1 = -EINVAL
      ↔ msize > MAX_MSG_SIZE) ∧
    (msize = MAX_MSG_SIZE →
      (vipc_send_message qs qid mtype mtext msize true now w).1 = 0 ∧
      (slot (vipc_send_message qs qid mtype mtext msize true now w).2 qid.toNat).messages
        = (slot qs qid.toNat).messages ++
          [{ mtype := mtype, msize := MAX_MSG_SIZE, timestamp := now
             mtext := mtext.take MAX_MSG_SIZE }]) ∧
    (msize = MAX_MSG_SIZE + 1 →
      vipc_send_message qs qid mtype mtext msize alloc_ok now w = (-EINVAL, qs)) := by
  have hb := bad_qid_of_valid qs qid h0 h1 hu
  refine ⟨?_, ?_, ?_⟩
  · constructor
    · intro hr
      by_contra hs
      have hs1 : msize ≤ MAX_MSG_SIZE := Nat.le_of_not_lt hs
      cases alloc_ok with
      | false =>
        rw [send_no_memory _ _ _ _ _ _ _ hb hs1] at hr
        simp [EINVAL, ENOMEM] at hr
      | true =>
        rw [send_ok _ _ _ _ _ _ _ hb hs1] at hr
        simp [EINVAL] at hr
    · intro hs
      rw [send_too_large _ _ _ _ _ _ _ _ hb hs]
  · intro hs
    rw [send_ok _ _ _ _ _ _ _ hb (Nat.le_of_eq hs)]
    obtain ⟨_, k2⟩ := bad_qid_set qs qid (send_locked (slot qs qid.toNat)
      { mtype := mtype, msize := msize, timestamp := now, mtext := mtext.take msize } w) hb hu
    refine ⟨rfl, ?_⟩
    simp only []
    rw [k2, hs]
    rfl
  · intro hs
    exact send_too_large _ _ _ _ _ _ _ _ hb (by omega)

/-- C5, an instance: payloads of 4096 and of 4097 bytes on the first queue. -/
theorem C5_size_boundary_witness :
    (vipc_send_message [fresh_queue 0] 0 1 payload_max 4096 true 0 0).1 = 0 ∧
    (vipc_send_message [fresh_queue 0] 0 1 (0 :: payload_max) 4097 true 0 0).1 = -EINVAL :=
  ⟨((C5_size_boundary [fresh_queue 0] 0 1 payload_max 4096 true 0 0 (by decide) (by decide)
      (by decide)).2.1 rfl).1,
    (C5_size_boundary [fresh_queue 0] 0 1 (0 :: payload_max) 4097 true 0 0 (by decide)
      (by decide) (by decide)).1.mpr (by decide)⟩

/-- C7: failure atomicity. Whenever `vipc_create_queue` returns a negative
value, or `vipc_send_message` or `vipc_receive_message` returns a nonzero
value, the registry after the call is the registry before it: every field of
every queue is unchanged, and a failed receive also leaves the caller's buffer
and `*actual_size` untouched. The only failure values are `-1` for create,
`-EINVAL` and `-ENOMEM` for send, `-EINVAL` and `-ENOMSG` for receive. -/
theorem C7_failure_atomicity (qs : Registry) (qid mtype : Int) (mtext : List Byte)
    (msize maxsize actual_size w : Nat) (alloc_ok : Bool) (now : Int) :
    (((vipc_create_queue qs).1 < 0 →
        (vipc_create_queue qs).1 = -1 ∧ (vipc_create_queue qs).2 = qs) ∧
      ((vipc_send_message qs qid mtype mtext msize alloc_ok now w).1 ≠ 0 →
        ((vipc_send_message qs qid mtype mtext msize alloc_ok now w).1 = -EINVAL ∨
          (vipc_send_message qs qid mtype mtext msize alloc_ok now w).1 = -ENOMEM) ∧
        (vipc_send_message qs qid mtype mtext msize alloc_ok now w).2 = qs)) ∧
    ((vipc_receive_message qs qid mtype mtext maxsize actual_size w).ret ≠ 0 →
      ((vipc_receive_message qs qid mtype mtext maxsize actual_size w).ret = -EINVAL ∨
        (vipc_receive_message qs qid mtype mtext maxsize actual_size w).ret = -ENOMSG) ∧
      (vipc_receive_message qs qid mtype mtext maxsize actual_size w).queues = qs ∧
      (vipc_receive_message qs qid mtype mtext maxsize actual_size w).mtext = mtext ∧
      (vipc_receive_message qs qid mtype mtext maxsize actual_size w).actual_size
        = actual_size) := by
  refine ⟨⟨?_, ?_⟩, ?_⟩
  · intro hneg
    unfold vipc_create_queue at hneg ⊢
    rcases create_loop_cases qs 0 MAX_QUEUES with ⟨h1, _⟩ | ⟨j, _, _, _, _, h5⟩
    · rw [h1]; exact ⟨rfl, rfl⟩
    · rw [h5] at hneg
      simp only at hneg
      omega
  · intro hne
    cases hb : bad_qid qs qid with
    | true => rw [send_bad _ _ _ _ _ _ _ _ hb]; exact ⟨Or.inl rfl, rfl⟩
    | false =>
      by_cases hs : msize > MAX_MSG_SIZE
      · rw [send_too_large _ _ _ _ _ _ _ _ hb hs]; exact ⟨Or.inl rfl, rfl⟩
      · have hs1 : msize ≤ MAX_MSG_SIZE := Nat.le_of_not_lt hs
        cases alloc_ok with
        | false => rw [send_no_memory _ _ _ _ _ _ _ hb hs1]; exact ⟨Or.inr rfl, rfl⟩
        | true =>
          rw [send_ok _ _ _ _ _ _ _ hb hs1] at hne
          exact absurd rfl hne
  · intro hne
    cases hb : bad_qid qs qid with
    | true => rw [receive_bad _ _ _ _ _ _ _ hb]; exact ⟨Or.inl rfl, rfl, rfl, rfl⟩
    | false =>
      cases hs : scan_unlink mtype (slot qs qid.toNat).messages with
      | none => rw [receive_none _ _ _ _ _ _ _ hb hs]; exact ⟨Or.inr rfl, rfl, rfl, rfl⟩
      | some p =>
        rw [receive_some _ _ _ _ _ _ _ p.1 p.2 hb hs] at hne
        exact absurd rfl hne

/-- C7, an instance: on the registry after `sample_ops`, a second create, a
send of 4097 bytes, a send whose allocation fails, and a receive filtered on
an absent type all fail and change nothing. -/
theorem C7_failure_atomicity_witness :
    (vipc_create_queue [sample_queue]).2 = [sample_queue] ∧
    (vipc_send_message [sample_queue] 0 1 (0 :: payload_max) 4097 true 0 5).2
      = [sample_queue] ∧
    (vipc_send_message [sample_queue] 0 1 [1] 1 false 0 5).2 = [sample_queue] ∧
    (vipc_receive_message [sample_queue] 0 8 [0] 1 0 5).queues = [sample_queue] :=
  ⟨((C7_failure_atomicity [sample_queue] 0 1 [] 0 0 0 0 true 0).1.1 (by decide)).2,
    ((C7_failure_atomicity [sample_queue] 0 1 (0 :: payload_max) 4097 0 0 5 true 0).1.2
      (by decide)).2,
    ((C7_failure_atomicity [sample_queue] 0 1 [1] 1 0 0 5 false 0).1.2 (by decide)).2,
    ((C7_failure_atomicity [sample_queue] 0 8 [0] 0 1 0 5 true 0).2 (by decide)).2.1⟩

/-- C8: the code at the failing input. On the registry left by `vipc_init`,
where slot 0 is not in use, `vipc_get_stats(0)` reads the slot and prints the
line `ops=0 avg_lock_wait=0` instead of failing, while `vipc_send_message` and
`vipc_receive_message` reject the same `qid` with `-EINVAL`. -/
theorem C8_get_stats_unchecked :
    (slot vipc_init 0).in_use = false ∧
    vipc_get_stats vipc_init 0 = some { qid := 0, ops := 0, avg_lock_wait_ns := 0 } ∧
    exec vipc_init (.stats 0)
      = some (.stats { qid := 0, ops := 0, avg_lock_wait_ns := 0 }, vipc_init) ∧
    (vipc_send_message vipc_init 0 1 [] 0 true 0 0).1 = -EINVAL ∧
    (vipc_receive_message vipc_init 0 0 [] 0 0 0).ret = -EINVAL := by
  decide

/-- C9, the claim as stated fails: on a queue just created, three sends
succeed with lock waits of `2^63 - 1` ns each; the report then shows 3
operations and an average that is not `floor((w1 + w2 + w3) / 3)`, because
`total_lock_wait_time_ns` has wrapped around `2^64`. -/
theorem C9_counterexample :
    ∃ rs qs line,
      run vipc_init [.create, .send 0 1 [] 0 true 0 S64_MAX, .send 0 1 [] 0 true 0 S64_MAX,
        .send 0 1 [] 0 true 0 S64_MAX] = some (rs, qs) ∧
      rs = [.created 0, .sent 0, .sent 0, .sent 0] ∧
      vipc_get_stats qs 0 = some line ∧ line.ops = 3 ∧
      line.avg_lock_wait_ns ≠ (S64_MAX + S64_MAX + S64_MAX) / 3 :=
  ⟨_, _, _, rfl, rfl, rfl, rfl, by decide⟩

/-- C9 (amended): on a queue just created, after any run in which the
successful sends and receives on that queue had the lock waits `w1..wK`
(failed calls and calls on other queues in between), `total_operations` is
`K mod 2^64` and `total_lock_wait_time_ns` is `(w1 + ... + wK) mod 2^64`. The
average of any queue is computed without a division by zero: the computation
has a result, which is 0 when `total_operations == 0` and otherwise
`total_lock_wait_time_ns / total_operations`. The report of `vipc_get_stats`,
and the block of `vipc_proc_show` alike, shows `total_operations` and that
average, and changes no queue state. Hence the average is 0 when `K = 0`, and
when `K < 2^64` and the waits sum to less than `2^64` it is
`floor((w1 + ... + wK) / K)` with `total_operations == K`. -/
theorem C9_stats_average (qs0 qs1 : Registry) (qid : Int) (hlen : qs0.length = MAX_QUEUES)
    (hc : vipc_create_queue qs0 = (qid, qs1)) (hq : 0 ≤ qid)
    (ops : List Op) (rs : List Reply) (qs2 : Registry) (hr : run qs1 ops = some (rs, qs2)) :
    ((slot qs2 qid.toNat).total_operations = (waits qid ops rs).length % U64_MOD ∧
      (slot qs2 qid.toNat).total_lock_wait_time_ns = (waits qid ops rs).sum % U64_MOD) ∧
    ((∀ a : Nat, div_u64 a 0 = none) ∧
      ∀ q : vipc_queue, avg_lock_wait q =
        some (if q.total_operations = 0 then 0
          else q.total_lock_wait_time_ns / q.total_operations)) ∧
    exec qs2 (.stats qid) = some (.stats
      { qid := qid
        ops := (slot qs2 qid.toNat).total_operations
        avg_lock_wait_ns :=
          if (slot qs2 qid.toNat).total_operations = 0 then 0
          else (slot qs2 qid.toNat).total_lock_wait_time_ns
            / (slot qs2 qid.toNat).total_operations }, qs2) ∧
    (∃ bs b, vipc_proc_show qs2 = some bs ∧ b ∈ bs ∧ b.queue_id = qid.toNat ∧
      b.total_operations = (slot qs2 qid.toNat).total_operations ∧
      b.avg_lock_wait =
        if (slot qs2 qid.toNat).total_operations = 0 then 0
        else (slot qs2 qid.toNat).total_lock_wait_time_ns
          / (slot qs2 qid.toNat).total_operations) ∧
    ((waits qid ops rs).length = 0 →
      avg_lock_wait (slot qs2 qid.toNat) = some 0) ∧
    ((waits qid ops rs).length < U64_MOD → (waits qid ops rs).sum < U64_MOD →
      (slot qs2 qid.toNat).total_operations = (waits qid ops rs).length ∧
      avg_lock_wait (slot qs2 qid.toNat) =
        some (if (waits qid ops rs).length = 0 then 0
          else (waits qid ops rs).sum / (waits qid ops rs).length)) := by
  obtain ⟨hb, hslot, _, _, _⟩ := create_ok qs0 qs1 qid hlen hc hq
  obtain ⟨hb2, c1, c2, c3, c4⟩ := run_counters ops qs1 qs2 qid rs hb hr
  rw [hslot] at c1 c2 c3 c4
  simp only [fresh_queue, Nat.zero_add] at c1 c2 c3 c4
  have t1 := c3 (by unfold U64_MOD; omega)
  have t2 := c4 (by unfold U64_MOD; omega)
  rw [Nat.mod_eq_of_lt t1] at c1
  rw [Nat.mod_eq_of_lt t2] at c2
  obtain ⟨hq0, hq1, hu⟩ := bad_qid_false qs2 qid hb2
  refine ⟨⟨c1, c2⟩, ⟨fun a => by simp [div_u64], avg_lock_wait_eq⟩, ?_, ?_, ?_, ?_⟩
  · simp only [exec, get_stats_eq qs2 qid hq0 hq1]
  · obtain ⟨bs, e1, e2⟩ := proc_show_blocks_eq qs2 (List.range MAX_QUEUES)
    obtain ⟨b, hb, k1, _, _, k4, k5⟩ := e2 qid.toNat (List.mem_range.mpr (by omega)) hu
    exact ⟨bs, b, e1, hb, k1, k4, k5⟩
  · intro hk
    rw [avg_lock_wait_eq, c1, hk]
    simp
  · intro hk hsum
    rw [Nat.mod_eq_of_lt hk] at c1
    rw [Nat.mod_eq_of_lt hsum] at c2
    refine ⟨c1, ?_⟩
    rw [avg_lock_wait_eq, c1, c2]

/-- C9, an instance: `sample_calls` on the first queue created, with lock
waits 7, 9 and 11. -/
theorem C9_stats_average_witness :
    run [fresh_queue 0] sample_calls = some (sample_call_replies, [sample_queue]) ∧
    waits 0 sample_calls sample_call_replies = [7, 9, 11] ∧
    (slot [sample_queue] (0 : Int).toNat).total_operations = 3 ∧
    avg_lock_wait (slot [sample_queue] (0 : Int).toNat) = some 9 ∧
    exec [sample_queue] (.stats 0)
      = some (.stats { qid := 0, ops := 3, avg_lock_wait_ns := 9 }, [sample_queue]) :=
  ⟨by decide, by decide,
    ((C9_stats_average vipc_init [fresh_queue 0] 0 rfl (by decide) (by decide) sample_calls
      sample_call_replies [sample_queue] (by decide)).2.2.2.2.2 (by decide) (by decide)).1,
    ((C9_stats_average vipc_init [fresh_queue 0] 0 rfl (by decide) (by decide) sample_calls
      sample_call_replies [sample_queue] (by decide)).2.2.2.2.2 (by decide) (by decide)).2,
    (C9_stats_average vipc_init [fresh_queue 0] 0 rfl (by decide) (by decide) sample_calls
      sample_call_replies [sample_queue] (by decide)).2.2.1⟩

/-- C10: queue lookup in send and receive. `vipc_receive_message` returns
`-EINVAL` exactly when `qid < 0`, `qid >= MAX_QUEUES` or slot `qid` is not in
use; for every such `qid`, `vipc_send_message` returns `-EINVAL` and leaves the
registry unchanged whatever the payload, its size and the allocator would do. -/
theorem C10_queue_lookup (qs : Registry) (qid mtype : Int) (mtext buf : List Byte)
    (msize maxsize actual_size w : Nat) (alloc_ok : Bool) (now : Int) :
    ((vipc_receive_message qs qid mtype buf maxsize actual_size w).ret = -EINVAL ↔
      (qid < 0 ∨ qid ≥ (MAX_QUEUES : Int) ∨ (slot qs qid.toNat).in_use = false)) ∧
    ((qid < 0 ∨ qid ≥ (MAX_QUEUES : Int) ∨ (slot qs qid.toNat).in_use = false) →
      vipc_send_message qs qid mtype mtext msize alloc_ok now w = (-EINVAL, qs)) := by
  rw [← bad_qid_true]
  constructor
  · constructor
    · intro hr
      cases hb : bad_qid qs qid with
      | true => rfl
      | false =>
        cases hs : scan_unlink mtype (slot qs qid.toNat).messages with
        | none =>
          rw [receive_none _ _ _ _ _ _ _ hb hs] at hr
          simp [EINVAL, ENOMSG] at hr
        | some p =>
          rw [receive_some _ _ _ _ _ _ _ p.1 p.2 hb hs] at hr
          simp [EINVAL] at hr
    · intro hb
      rw [receive_bad _ _ _ _ _ _ _ hb]
  · intro hb
    exact send_bad _ _ _ _ _ _ _ _ hb

/-- C10, an instance: queue ids -1 and 1, and id 0 before any create. -/
theorem C10_queue_lookup_witness :
    vipc_send_message [sample_queue] (-1) 1 (0 :: payload_max) 4097 true 0 5
      = (-EINVAL, [sample_queue]) ∧
    vipc_send_message [sample_queue] 1 1 [1] 1 true 0 5 = (-EINVAL, [sample_queue]) ∧
    (vipc_receive_message vipc_init 0 0 [0] 1 0 5).ret = -EINVAL :=
  ⟨(C10_queue_lookup [sample_queue] (-1) 1 (0 :: payload_max) [] 4097 0 0 5 true 0).2
      (Or.inl (by decide)),
    (C10_queue_lookup [sample_queue] 1 1 [1] [] 1 0 0 5 true 0).2 (Or.inr (Or.inl (by decide))),
    (C10_queue_lookup vipc_init 0 0 [] [0] 0 1 0 5 true 0).1.mpr (Or.inr (Or.inr (by decide)))⟩

/-- C11: `-ENOMSG` exactly when nothing matches. On a queue in use,
`vipc_receive_message` returns either 0 or `-ENOMSG`; it returns `-ENOMSG`
exactly when no queued message is accepted by the filter, that is, when the
list is empty for `mtype == 0`, and when no queued message has type `mtype`
for `mtype != 0`; in every other case it returns 0. -/
theorem C11_nomatch_iff (qs : Registry) (qid mtype : Int) (buf : List Byte)
    (maxsize actual_size w : Nat) (h0 : 0 ≤ qid) (h1 : qid < (MAX_QUEUES : Int))
    (hu : (slot qs qid.toNat).in_use = true) :
    ((vipc_receive_message qs qid mtype buf maxsize actual_size w).ret = -ENOMSG ∨
      (vipc_receive_message qs qid mtype buf maxsize actual_size w).ret = 0) ∧
    (mtype = 0 →
      ((vipc_receive_message qs qid mtype buf maxsize actual_size w).ret = -ENOMSG ↔
        (slot qs qid.toNat).messages = [])) ∧
    (mtype ≠ 0 →
      ((vipc_receive_message qs qid mtype buf maxsize actual_size w).ret = -ENOMSG ↔
        ∀ m ∈ (slot qs qid.toNat).messages, m.mtype ≠ mtype)) := by
  have hb := bad_qid_of_valid qs qid h0 h1 hu
  have key : (vipc_receive_message qs qid mtype buf maxsize actual_size w).ret = -ENOMSG ↔
      scan_unlink mtype (slot qs qid.toNat).messages = none := by
    cases hs : scan_unlink mtype (slot qs qid.toNat).messages with
    | none => rw [receive_none _ _ _ _ _ _ _ hb hs]; simp
    | some p =>
      rw [receive_some _ _ _ _ _ _ _ p.1 p.2 hb hs]
      simp [ENOMSG]
  refine ⟨?_, ?_, ?_⟩
  · cases hs : scan_unlink mtype (slot qs qid.toNat).messages with
    | none => left; rw [receive_none _ _ _ _ _ _ _ hb hs]
    | some p => right; rw [receive_some _ _ _ _ _ _ _ p.1 p.2 hb hs]
  · intro ht
    rw [key, scan_unlink_none]
    constructor
    · intro h
      cases hl : (slot qs qid.toNat).messages with
      | nil => rfl
      | cons m l =>
        rw [hl] at h
        exact absurd (Or.inl ht) (h m (List.mem_cons_self m l))
    · intro h x hx
      rw [h] at hx
      simp at hx
  · intro ht
    rw [key, scan_unlink_none]
    constructor
    · intro h m hm hmt
      exact h m hm (Or.inr hmt)
    · intro h m hm hor
      rcases hor with hor | hor
      · exact ht hor
      · exact h m hm hor

/-- C11, an instance: on a queue holding types 4, 9, 4, a filter 8 finds
nothing, filters 9 and 0 succeed; on an empty queue filter 0 finds nothing. -/
theorem C11_nomatch_iff_witness :
    (vipc_receive_message sample_aba 0 8 [0] 1 0 5).ret = -ENOMSG ∧
    (vipc_receive_message sample_aba 0 9 [0] 1 0 5).ret = 0 ∧
    (vipc_receive_message sample_aba 0 0 [0] 1 0 5).ret = 0 ∧
    (vipc_receive_message [fresh_queue 0] 0 0 [0] 1 0 5).ret = -ENOMSG :=
  ⟨((C11_nomatch_iff sample_aba 0 8 [0] 1 0 5 (by decide) (by decide) (by decide)).2.2
      (by decide)).mpr (by decide),
    by decide, by decide,
    ((C11_nomatch_iff [fresh_queue 0] 0 0 [0] 1 0 5 (by decide) (by decide) (by decide)).2.1
      rfl).mpr rfl⟩

/-- C12, the claim as stated fails: on the same registry, a send of 4097 bytes
to the valid queue 0 and a send of one byte to the invalid queue id 5 return
the same value, `-EINVAL`. -/
theorem C12_counterexample :
    (vipc_send_message [sample_queue] 0 1 (0 :: payload_max) 4097 true 0 5).1
      = (vipc_send_message [sample_queue] 5 1 [1] 1 true 0 5).1 ∧
    bad_qid [sample_queue] 0 = false ∧ bad_qid [sample_queue] 5 = true := by
  refine ⟨?_, by decide, by decide⟩
  rw [send_too_large _ _ _ _ _ _ _ _ (by decide) (by decide), send_bad _ _ _ _ _ _ _ _ (by decide)]

/-- C12 (amended): the value returned by `vipc_send_message` is one of the
three pairwise different values 0, `-EINVAL` and `-ENOMEM`. It is `-EINVAL`
exactly when the queue id is invalid or `msize > MAX_MSG_SIZE` (the two
failures share this value), `-ENOMEM` exactly when the queue is valid, the size
is within the limit and the allocation fails, and 0 exactly when the queue is
valid, the size is within the limit and the allocation succeeds. -/
theorem C12_send_results (qs : Registry) (qid mtype : Int) (mtext : List Byte) (msize : Nat)
    (alloc_ok : Bool) (now : Int) (w : Nat) :
    ((0 : Int) ≠ -EINVAL ∧ (0 : Int) ≠ -ENOMEM ∧ -EINVAL ≠ -ENOMEM) ∧
    ((vipc_send_message qs qid mtype mtext msize alloc_ok now w).1 = -EINVAL ↔
      (bad_qid qs qid = true ∨ msize > MAX_MSG_SIZE)) ∧
    ((vipc_send_message qs qid mtype mtext msize alloc_ok now w).1 = -ENOMEM ↔
      (bad_qid qs qid = false ∧ msize ≤ MAX_MSG_SIZE ∧ alloc_ok = false)) ∧
    ((vipc_send_message qs qid mtype mtext msize alloc_ok now w).1 = 0 ↔
      (bad_qid qs qid = false ∧ msize ≤ MAX_MSG_SIZE ∧ alloc_ok = true)) := by
  refine ⟨by decide, ?_⟩
  cases hb : bad_qid qs qid with
  | true =>
    rw [send_bad _ _ _ _ _ _ _ _ hb]
    simp [EINVAL, ENOMEM]
  | false =>
    by_cases hs : msize > MAX_MSG_SIZE
    · rw [send_too_large _ _ _ _ _ _ _ _ hb hs]
      simp [EINVAL, ENOMEM, hs]
    · have hs1 : msize ≤ MAX_MSG_SIZE := Nat.le_of_not_lt hs
      cases alloc_ok with
      | false =>
        rw [send_no_memory _ _ _ _ _ _ _ hb hs1]
        simp [EINVAL, ENOMEM, hs1]
      | true =>
        rw [send_ok _ _ _ _ _ _ _ hb hs1]
        simp [EINVAL, ENOMEM, hs1]

/-- C12, an instance: the four outcomes on the registry after `sample_ops`. -/
theorem C12_send_results_witness :
    (vipc_send_message [sample_queue] 0 1 [1] 1 true 0 5).1 = 0 ∧
    (vipc_send_message [sample_queue] 0 1 [1] 1 false 0 5).1 = -ENOMEM ∧
    (vipc_send_message [sample_queue] 0 1 (0 :: payload_max) 4097 true 0 5).1 = -EINVAL ∧
    (vipc_send_message [sample_queue] 5 1 [1] 1 true 0 5).1 = -EINVAL :=
  ⟨(C12_send_results [sample_queue] 0 1 [1] 1 true 0 5).2.2.2.mpr
      ⟨by decide, by decide, rfl⟩,
    (C12_send_results [sample_queue] 0 1 [1] 1 false 0 5).2.2.1.mpr
      ⟨by decide, by decide, rfl⟩,
    (C12_send_results [sample_queue] 0 1 (0 :: payload_max) 4097 true 0 5).2.1.mpr
      (Or.inr (by decide)),
    (C12_send_results [sample_queue] 5 1 [1] 1 true 0 5).2.1.mpr (Or.inl (by decide))⟩

/-- C13, the claim as stated fails: after one create and two successful sends
with lock waits of `2^63 - 1` ns, queue 0 is in use with
`total_lock_wait_time_ns = 2^64 - 2`; a third such send returns 0 and leaves
`total_lock_wait_time_ns = 2^63 - 3`, less than before the call. -/
theorem C13_counterexample :
    ∃ rs qs,
      run vipc_init [.create, .send 0 1 [] 0 true 0 S64_MAX, .send 0 1 [] 0 true 0 S64_MAX]
        = some (rs, qs) ∧
      (slot qs 0).in_use = true ∧
      (vipc_send_message qs 0 1 [] 0 true 0 S64_MAX).1 = 0 ∧
      (slot (vipc_send_message qs 0 1 [] 0 true 0 S64_MAX).2 0).total_lock_wait_time_ns
        < (slot qs 0).total_lock_wait_time_ns :=
  ⟨_, _, rfl, rfl, rfl, by decide⟩

/-- C13 (amended): a call of create, send, receive or stats leaves a queue in
use in use and never resets its counters: `total_operations` either keeps its
value or becomes `total_operations + 1` modulo `2^64`, and
`total_lock_wait_time_ns` either keeps its value or becomes the old value plus
the measured lock wait modulo `2^64` (both change exactly when the call is a
send or receive on that queue returning 0). Hence each counter after the call
is greater than or equal to its value before whenever the 64-bit addition does
not wrap: `total_operations + 1 < 2^64`, and old value plus lock wait
`< 2^64`. -/
theorem C13_counters_monotone (qs qs1 : Registry) (qid : Int) (op : Op) (r : Reply)
    (h0 : 0 ≤ qid) (h1 : qid < (MAX_QUEUES : Int))
    (hu : (slot qs qid.toNat).in_use = true) (he : exec qs op = some (r, qs1)) :
    (slot qs1 qid.toNat).in_use = true ∧
    (counted_wait qid op r = none →
      (slot qs1 qid.toNat).total_operations = (slot qs qid.toNat).total_operations ∧
      (slot qs1 qid.toNat).total_lock_wait_time_ns
        = (slot qs qid.toNat).total_lock_wait_time_ns) ∧
    (∀ w, counted_wait qid op r = some w →
      (slot qs1 qid.toNat).total_operations
        = ((slot qs qid.toNat).total_operations + 1) % U64_MOD ∧
      (slot qs1 qid.toNat).total_lock_wait_time_ns
        = ((slot qs qid.toNat).total_lock_wait_time_ns + w) % U64_MOD) ∧
    ((slot qs qid.toNat).total_operations + 1 < U64_MOD →
      (slot qs qid.toNat).total_operations ≤ (slot qs1 qid.toNat).total_operations) ∧
    ((∀ w, counted_wait qid op r = some w →
        (slot qs qid.toNat).total_lock_wait_time_ns + w < U64_MOD) →
      (slot qs qid.toNat).total_lock_wait_time_ns
        ≤ (slot qs1 qid.toNat).total_lock_wait_time_ns) := by
  have hb := bad_qid_of_valid qs qid h0 h1 hu
  obtain ⟨c1, c2, c3⟩ := exec_counters qs qs1 qid op r hb he
  refine ⟨(bad_qid_false qs1 qid c1).2.2, ?_, ?_, ?_, ?_⟩
  · intro hn
    rw [hn] at c2 c3
    exact ⟨c2, c3⟩
  · intro w hw
    rw [hw] at c2 c3
    exact ⟨c2, c3⟩
  · intro hlt
    rw [c2]
    cases counted_wait qid op r with
    | none => exact Nat.le_refl _
    | some w =>
      show _ ≤ ((slot qs qid.toNat).total_operations + 1) % U64_MOD
      rw [Nat.mod_eq_of_lt hlt]
      exact Nat.le_succ _
  · intro hlt
    rw [c3]
    cases hcw : counted_wait qid op r with
    | none => exact Nat.le_refl _
    | some w =>
      show _ ≤ ((slot qs qid.toNat).total_lock_wait_time_ns + w) % U64_MOD
      rw [Nat.mod_eq_of_lt (hlt w hcw)]
      exact Nat.le_add_right _ _

/-- C13, an instance: a successful send with lock wait 5 on the registry after
`sample_ops`, where the counters are 3 and 27. -/
theorem C13_counters_monotone_witness :
    (3 : Nat) ≤ (slot (vipc_send_message [sample_queue] 0 1 [1] 1 true 0 5).2
      (0 : Int).toNat).total_operations ∧
    (27 : Nat) ≤ (slot (vipc_send_message [sample_queue] 0 1 [1] 1 true 0 5).2
      (0 : Int).toNat).total_lock_wait_time_ns :=
  ⟨(C13_counters_monotone [sample_queue] _ 0 (.send 0 1 [1] 1 true 0 5) _ (by decide)
      (by decide) (by decide) rfl).2.2.2.1 (by decide),
    (C13_counters_monotone [sample_queue] _ 0 (.send 0 1 [1] 1 true 0 5) _ (by decide)
      (by decide) (by decide) rfl).2.2.2.2 (by decide)⟩

/-- C14, the claim as stated fails: once queue 0 exists, the `/proc` status
read `vipc_proc_show` takes `queues_lock`, then `queues[0].lock` while still
holding it, and releases `queues_lock` last. -/
theorem C14_counterexample :
    (vipc_create_queue vipc_init).2 = [fresh_queue 0] ∧
    proc_show_events [fresh_queue 0] =
      [.lock .queues_lock, .lock (.queue_lock 0), .unlock (.queue_lock 0),
       .unlock .queues_lock] ∧
    queue_under_registry [] (proc_show_events [fresh_queue 0]) = true := by
  decide

/-- C14 (amended): in the sequence of lock calls of every operation, starting
with no lock held, `queues_lock` is never requested while a `queues[i].lock`
is held. Create, send, receive, stats and the shutdown `vipc_exit` never
request a `queues[i].lock` while holding `queues_lock`; the `/proc` status
read `vipc_proc_show` does, for every slot in use: it requests a
`queues[i].lock` under `queues_lock` exactly when some slot is in use. -/
theorem C14_lock_order (qs : Registry) (op : Op) :
    (registry_under_queue [] (op_events qs op) = false ∧
      registry_under_queue [] (proc_show_events qs) = false ∧
      registry_under_queue [] (exit_events qs) = false) ∧
    (queue_under_registry [] (op_events qs op) = false ∧
      queue_under_registry [] (exit_events qs) = false) ∧
    (queue_under_registry [] (proc_show_events qs) = true ↔
      ∃ i, i < MAX_QUEUES ∧ (slot qs i).in_use = true) := by
  have hsec1 := registry_under_queue_sections qs (List.range MAX_QUEUES)
  have hsec2 := queue_under_registry_sections_free qs (List.range MAX_QUEUES)
  refine ⟨⟨?_, ?_, ?_⟩, ⟨?_, ?_⟩, ?_⟩
  · cases op with
    | create => rfl
    | send qid mtype mtext msize alloc_ok now w =>
      simp only [op_events, send_events]
      split_ifs <;> simp [registry_under_queue, is_queue_lock]
    | receive qid mtype mtext maxsize actual_size w =>
      simp only [op_events, receive_events]
      split_ifs <;> simp [registry_under_queue, is_queue_lock]
    | stats qid => simp [op_events, stats_events, registry_under_queue, is_queue_lock]
  · unfold proc_show_events
    simp only [registry_under_queue]
    rw [hsec1]
    simp [registry_under_queue]
  · unfold exit_events
    have h := hsec1 [] []
    rw [List.append_nil] at h
    rw [h]
    rfl
  · cases op with
    | create => rfl
    | send qid mtype mtext msize alloc_ok now w =>
      simp only [op_events, send_events]
      split_ifs <;> simp [queue_under_registry, is_queue_lock]
    | receive qid mtype mtext maxsize actual_size w =>
      simp only [op_events, receive_events]
      split_ifs <;> simp [queue_under_registry, is_queue_lock]
    | stats qid => simp [op_events, stats_events, queue_under_registry, is_queue_lock]
  · unfold exit_events
    have h := hsec2 [] [] rfl
    rw [List.append_nil] at h
    rw [h]
    rfl
  · unfold proc_show_events
    simp only [queue_under_registry, is_queue_lock, Bool.false_and, Bool.false_or]
    rw [queue_under_registry_sections_held qs _ _ _ (by decide)]
    simp [queue_under_registry, List.any_eq_true]

/-- C14, an instance: the lock calls of a successful send and of the status
read on the registry after `sample_ops`. -/
theorem C14_lock_order_witness :
    op_events [sample_queue] (.send 0 1 [1] 1 true 0 5)
      = [.lock (.queue_lock 0), .unlock (.queue_lock 0)] ∧
    queue_under_registry [] (op_events [sample_queue] (.send 0 1 [1] 1 true 0 5)) = false ∧
    registry_under_queue [] (proc_show_events [sample_queue]) = false :=
  ⟨by decide, (C14_lock_order [sample_queue] (.send 0 1 [1] 1 true 0 5)).2.1.1,
    (C14_lock_order [sample_queue] (.send 0 1 [1] 1 true 0 5)).1.2.1⟩

/-- C16, the claim as stated fails: after one create and two successful sends
with lock waits of `2^63 - 1` ns, a third send with a lock wait of 2 ns
returns 0 and leaves `total_lock_wait_time_ns = 0`, not the old value
`2^64 - 2` increased by 2. -/
theorem C16_counterexample :
    ∃ rs qs,
      run vipc_init [.create, .send 0 1 [] 0 true 0 S64_MAX, .send 0 1 [] 0 true 0 S64_MAX]
        = some (rs, qs) ∧
      (slot qs 0).in_use = true ∧
      (vipc_send_message qs 0 1 [7] 1 true 0 2).1 = 0 ∧
      (slot qs 0).total_lock_wait_time_ns = 18446744073709551614 ∧
      (slot (vipc_send_message qs 0 1 [7] 1 true 0 2).2 0).total_lock_wait_time_ns = 0 ∧
      (slot (vipc_send_message qs 0 1 [7] 1 true 0 2).2 0).total_lock_wait_time_ns
        ≠ (slot qs 0).total_lock_wait_time_ns + 2 :=
  ⟨_, _, rfl, rfl, rfl, rfl, rfl, by decide⟩

/-- C16 (amended): on a queue in use with list `L`, a send of type `t` and
payload `p` with `|p| <= MAX_MSG_SIZE`, whose allocation succeeds, returns 0
and leaves the queue with list `L ++ [message(t, p)]` (type, size and bytes
stored unchanged), `msg_count` increased by 1 as a 32-bit `int`, and
`total_size`, `total_operations` and `total_lock_wait_time_ns` increased by
`|p|`, 1 and the lock wait `w` modulo `2^64`; `in_use` and `queue_id` are
unchanged and no other slot is modified. The increases are exact whenever the
field does not overflow: `INT_MIN <= msg_count < INT_MAX`, and old value plus
increment `< 2^64` for the three unsigned fields. -/
theorem C16_send_postcondition (qs : Registry) (qid t : Int) (p : List Byte) (now : Int)
    (w : Nat) (h0 : 0 ≤ qid) (h1 : qid < (MAX_QUEUES : Int))
    (hu : (slot qs qid.toNat).in_use = true) (hs : p.length ≤ MAX_MSG_SIZE) :
    (vipc_send_message qs qid t p p.length true now w).1 = 0 ∧
    ((slot (vipc_send_message qs qid t p p.length true now w).2 qid.toNat).messages =
        (slot qs qid.toNat).messages ++
          [{ mtype := t, msize := p.length, timestamp := now, mtext := p }] ∧
      (slot (vipc_send_message qs qid t p p.length true now w).2 qid.toNat).msg_count =
        wrap_int ((slot qs qid.toNat).msg_count + 1) ∧
      (slot (vipc_send_message qs qid t p p.length true now w).2 qid.toNat).total_size =
        ((slot qs qid.toNat).total_size + p.length) % U64_MOD ∧
      (slot (vipc_send_message qs qid t p p.length true now w).2 qid.toNat).total_operations =
        ((slot qs qid.toNat).total_operations + 1) % U64_MOD ∧
      (slot (vipc_send_message qs qid t p p.length true now w).2
          qid.toNat).total_lock_wait_time_ns =
        ((slot qs qid.toNat).total_lock_wait_time_ns + w) % U64_MOD) ∧
    ((slot (vipc_send_message qs qid t p p.length true now w).2 qid.toNat).in_use = true ∧
      (slot (vipc_send_message qs qid t p p.length true now w).2 qid.toNat).queue_id =
        (slot qs qid.toNat).queue_id ∧
      (vipc_send_message qs qid t p p.length true now w).2.length = qs.length ∧
      ∀ j, j ≠ qid.toNat →
        slot (vipc_send_message qs qid t p p.length true now w).2 j = slot qs j) ∧
    ((INT_MIN ≤ (slot qs qid.toNat).msg_count → (slot qs qid.toNat).msg_count < INT_MAX →
        (slot (vipc_send_message qs qid t p p.length true now w).2 qid.toNat).msg_count =
          (slot qs qid.toNat).msg_count + 1) ∧
      ((slot qs qid.toNat).total_size + p.length < U64_MOD →
        (slot (vipc_send_message qs qid t p p.length true now w).2 qid.toNat).total_size =
          (slot qs qid.toNat).total_size + p.length) ∧
      ((slot qs qid.toNat).total_operations + 1 < U64_MOD →
        (slot (vipc_send_message qs qid t p p.length true now w).2
            qid.toNat).total_operations =
          (slot qs qid.toNat).total_operations + 1) ∧
      ((slot qs qid.toNat).total_lock_wait_time_ns + w < U64_MOD →
        (slot (vipc_send_message qs qid t p p.length true now w).2
            qid.toNat).total_lock_wait_time_ns =
          (slot qs qid.toNat).total_lock_wait_time_ns + w)) := by
  have hb := bad_qid_of_valid qs qid h0 h1 hu
  have hr := send_ok qs qid t p p.length now w hb hs
  rw [List.take_length] at hr
  obtain ⟨_, k2⟩ := bad_qid_set qs qid (send_locked (slot qs qid.toNat)
    { mtype := t, msize := p.length, timestamp := now, mtext := p } w) hb hu
  rw [hr]
  simp only []
  rw [k2]
  refine ⟨trivial, ⟨rfl, rfl, rfl, rfl, rfl⟩, ⟨hu, rfl, List.length_set _ _ _, ?_⟩,
    ⟨?_, ?_, ?_, ?_⟩⟩
  · intro j hj
    exact slot_set_other qs qid.toNat j _ (Ne.symm hj)
  · intro c1 c2
    simp only [send_locked]
    unfold wrap_int
    unfold INT_MIN at c1
    unfold INT_MAX at c2
    omega
  · intro c
    simp only [send_locked, add_u64]
    exact Nat.mod_eq_of_lt c
  · intro c
    simp only [send_locked, add_u64]
    exact Nat.mod_eq_of_lt c
  · intro c
    simp only [send_locked, add_u64]
    exact Nat.mod_eq_of_lt c

/-- C16, an instance: a one-byte message of type 8 sent with lock wait 5 to
the queue left by `sample_ops`. -/
theorem C16_send_postcondition_witness :
    (vipc_send_message [sample_queue] 0 8 [42] 1 true 200 5).2 =
      [{ queue_id := 0
         messages := [{ mtype := 5, msize := 3, timestamp := 100, mtext := [1, 2, 3] },
                      { mtype := 8, msize := 1, timestamp := 200, mtext := [42] }]
         msg_count := 2, total_size := 4, in_use := true, total_operations := 4
         total_lock_wait_time_ns := 32 }] ∧
    (slot (vipc_send_message [sample_queue] 0 8 [42] 1 true 200 5).2
      (0 : Int).toNat).msg_count = sample_queue.msg_count + 1 ∧
    (slot (vipc_send_message [sample_queue] 0 8 [42] 1 true 200 5).2
      (0 : Int).toNat).total_lock_wait_time_ns = sample_queue.total_lock_wait_time_ns + 5 :=
  ⟨by decide,
    (C16_send_postcondition [sample_queue] 0 8 [42] 200 5 (by decide) (by decide) (by decide)
      (by decide)).2.2.2.1 (by decide) (by decide),
    (C16_send_postcondition [sample_queue] 0 8 [42] 200 5 (by decide) (by decide) (by decide)
      (by decide)).2.2.2.2.2.2 (by decide)⟩

/-- C17: create is first-fit and resets only the claimed slot. When some slot
of the array is not in use, `vipc_create_queue` returns the smallest index `i`
whose slot is not in use; afterwards slot `i` has `in_use` set,
`queue_id == i`, an empty list and all four counters 0, and every other slot
is as it was, so a queue already in use is not reset. -/
theorem C17_create_first_fit (qs : Registry) (hlen : qs.length = MAX_QUEUES)
    (hfree : ∃ i, i < MAX_QUEUES ∧ (slot qs i).in_use = false) :
    ∃ i : Nat, (vipc_create_queue qs).1 = (i : Int) ∧ i < MAX_QUEUES ∧
      (slot qs i).in_use = false ∧ (∀ k, k < i → (slot qs k).in_use = true) ∧
      ((slot (vipc_create_queue qs).2 i).in_use = true ∧
        (slot (vipc_create_queue qs).2 i).queue_id = (i : Int) ∧
        (slot (vipc_create_queue qs).2 i).messages = [] ∧
        (slot (vipc_create_queue qs).2 i).msg_count = 0 ∧
        (slot (vipc_create_queue qs).2 i).total_size = 0 ∧
        (slot (vipc_create_queue qs).2 i).total_operations = 0 ∧
        (slot (vipc_create_queue qs).2 i).total_lock_wait_time_ns = 0) ∧
      (vipc_create_queue qs).2.length = qs.length ∧
      ∀ j, j ≠ i → slot (vipc_create_queue qs).2 j = slot qs j := by
  unfold vipc_create_queue
  rcases create_loop_cases qs 0 MAX_QUEUES with ⟨_, h2⟩ | ⟨j, _, h2, h3, h4, h5⟩
  · obtain ⟨i, hi, hf⟩ := hfree
    have := h2 i (Nat.zero_le i) (by omega)
    rw [hf] at this
    exact absurd this Bool.false_ne_true
  · rw [h5]
    have hs := slot_set_same qs j (fresh_queue j) (by omega)
    refine ⟨j, rfl, by omega, h3, fun k hk => h4 k (Nat.zero_le k) hk, ?_,
      List.length_set _ _ _, fun k hk => slot_set_other qs j k _ (Ne.symm hk)⟩
    simp only []
    rw [hs]
    exact ⟨rfl, rfl, rfl, rfl, rfl, rfl, rfl⟩

/-- C17, an instance: the registry left by `vipc_init`, where create claims
slot 0. -/
theorem C17_create_first_fit_witness :
    ∃ i : Nat, (vipc_create_queue vipc_init).1 = (i : Int) ∧ i < MAX_QUEUES ∧
      (slot vipc_init i).in_use = false ∧ (∀ k, k < i → (slot vipc_init k).in_use = true) ∧
      ((slot (vipc_create_queue vipc_init).2 i).in_use = true ∧
        (slot (vipc_create_queue vipc_init).2 i).queue_id = (i : Int) ∧
        (slot (vipc_create_queue vipc_init).2 i).messages = [] ∧
        (slot (vipc_create_queue vipc_init).2 i).msg_count = 0 ∧
        (slot (vipc_create_queue vipc_init).2 i).total_size = 0 ∧
        (slot (vipc_create_queue vipc_init).2 i).total_operations = 0 ∧
        (slot (vipc_create_queue vipc_init).2 i).total_lock_wait_time_ns = 0) ∧
      (vipc_create_queue vipc_init).2.length = vipc_init.length ∧
      ∀ j, j ≠ i → slot (vipc_create_queue vipc_init).2 j = slot vipc_init j :=
  C17_create_first_fit vipc_init rfl ⟨0, by decide, by decide⟩

/-- C18, the claim as stated fails: the registry reached by `sample_ops` holds
one message in queue 0 with `msg_count = 1` and `total_size = 3`; after
`vipc_exit` the list is empty while `msg_count` is still 1 and `total_size`
still 3. -/
theorem C18_counterexample :
    run vipc_init sample_ops = some (sample_replies, [sample_queue]) ∧
    (slot (vipc_exit [sample_queue]) 0).in_use = true ∧
    (slot (vipc_exit [sample_queue]) 0).messages = [] ∧
    (slot (vipc_exit [sample_queue]) 0).msg_count = 1 ∧
    (slot (vipc_exit [sample_queue]) 0).total_size = 3 ∧
    (slot (vipc_exit [sample_queue]) 0).msg_count
      ≠ ((slot (vipc_exit [sample_queue]) 0).messages.length : Int) := by
  decide

/-- C18 (amended): after `vipc_exit`, every queue that was in use has an empty
message list, and all its other fields (`msg_count`, `total_size`,
`total_operations`, `total_lock_wait_time_ns`, `in_use`, `queue_id`) have the
values they had before: the drain unlinks and frees the messages and writes no
counter. Slots not in use are unchanged. -/
theorem C18_exit_drains (qs : Registry) (hlen : qs.length = MAX_QUEUES) (j : Nat) :
    ((slot qs j).in_use = true →
      (slot (vipc_exit qs) j).messages = [] ∧
      (slot (vipc_exit qs) j).msg_count = (slot qs j).msg_count ∧
      (slot (vipc_exit qs) j).total_size = (slot qs j).total_size ∧
      (slot (vipc_exit qs) j).total_operations = (slot qs j).total_operations ∧
      (slot (vipc_exit qs) j).total_lock_wait_time_ns = (slot qs j).total_lock_wait_time_ns ∧
      (slot (vipc_exit qs) j).in_use = true ∧
      (slot (vipc_exit qs) j).queue_id = (slot qs j).queue_id) ∧
    ((slot qs j).in_use = false → slot (vipc_exit qs) j = slot qs j) ∧
    (vipc_exit qs).length = qs.length := by
  refine ⟨?_, ?_, (exit_loop_slot MAX_QUEUES 0 qs j).1⟩
  · intro hu
    rw [vipc_exit_slot qs hlen j, if_pos hu]
    exact ⟨drain_list_nil _, rfl, rfl, rfl, rfl, hu, rfl⟩
  · intro hu
    rw [vipc_exit_slot qs hlen j, if_neg (by rw [hu]; exact Bool.false_ne_true)]

/-- C18, an instance: `vipc_exit` on a queue holding three messages. -/
theorem C18_exit_drains_witness :
    (slot (vipc_exit sample_aba) 0).messages = [] ∧
    (slot (vipc_exit sample_aba) 0).msg_count = (slot sample_aba 0).msg_count ∧
    (slot (vipc_exit sample_aba) 0).total_size = (slot sample_aba 0).total_size ∧
    (slot (vipc_exit sample_aba) 0).total_operations = (slot sample_aba 0).total_operations ∧
    (slot (vipc_exit sample_aba) 0).total_lock_wait_time_ns
      = (slot sample_aba 0).total_lock_wait_time_ns ∧
    (slot (vipc_exit sample_aba) 0).in_use = true ∧
    (slot (vipc_exit sample_aba) 0).queue_id = (slot sample_aba 0).queue_id :=
  (C18_exit_drains sample_aba rfl 0).1 (by decide)

/-- C19, the claim as stated fails: after one create and `2^31` successful
sends of an empty payload, the queue in use has a wrapped, negative
`msg_count`, so `total_size <= MAX_MSG_SIZE * msg_count` does not hold. -/
theorem C19_counterexample :
    ∃ rs qs q,
      run vipc_init (Op.create :: List.replicate 2147483648 (Op.send 0 1 [] 0 true 0 0))
        = some (rs, qs) ∧
      q ∈ qs ∧ q.in_use = true ∧ q.msg_count < 0 ∧
      ¬ ((q.total_size : Int) ≤ (MAX_MSG_SIZE : Int) * q.msg_count) := by
  obtain ⟨rs, q1, h1, h2, _, h4⟩ :=
    run_empty_sends 2147483648 (fresh_queue 0) 0 rfl (by decide)
  have he : exec vipc_init Op.create = some (Reply.created 0, [fresh_queue 0]) := by decide
  have hneg : q1.msg_count = -2147483648 := by
    rw [h4]
    unfold wrap_int
    omega
  refine ⟨Reply.created 0 :: rs, [q1], q1, run_step _ _ _ _ _ _ _ he h1,
    List.mem_singleton.mpr rfl, h2, by rw [hneg]; decide, ?_⟩
  rw [hneg]
  unfold MAX_MSG_SIZE
  omega

/-- C19 (amended): in every registry reached from the initial one by create,
send, receive and stats calls, every message held in any slot has
`msize <= MAX_MSG_SIZE`; and every queue in use whose list holds at most
`INT_MAX` messages satisfies `total_size <= MAX_MSG_SIZE * msg_count`, with
`total_size` the unwrapped sum of the payload sizes, below `2^64`. -/
theorem C19_bounded_payloads (ops : List Op) (rs : List Reply) (qs : Registry)
    (hr : run vipc_init ops = some (rs, qs)) :
    (∀ q ∈ qs, ∀ m ∈ q.messages, m.msize ≤ MAX_MSG_SIZE) ∧
    (∀ q ∈ qs, q.in_use = true → (q.messages.length : Int) ≤ INT_MAX →
      (q.total_size : Int) ≤ (MAX_MSG_SIZE : Int) * q.msg_count ∧
      q.total_size = sum_msize q.messages ∧
      q.total_size < U64_MOD) := by
  refine ⟨msgs_bounded_run ops vipc_init qs rs msgs_bounded_init hr, ?_⟩
  intro q hq hu hlen
  obtain ⟨k1, k2, k3⟩ := reg_ok_run ops vipc_init qs rs reg_ok_init hr q hq hu
  have hle := sum_msize_le q.messages k3
  have hc : q.msg_count = (q.messages.length : Int) := by
    rw [k1]; exact wrap_int_small _ hlen
  have hlen1 : q.messages.length ≤ 2147483647 := by
    unfold INT_MAX at hlen; omega
  have hsum : sum_msize q.messages < U64_MOD := by
    unfold MAX_MSG_SIZE at hle
    unfold U64_MOD
    nlinarith
  have hts : q.total_size = sum_msize q.messages := by
    rw [k2]; exact Nat.mod_eq_of_lt hsum
  refine ⟨?_, hts, by rw [hts]; exact hsum⟩
  rw [hc, hts]
  exact_mod_cast hle

/-- C19, an instance: the registry after `sample_ops`. -/
theorem C19_bounded_payloads_witness :
    (∀ q ∈ [sample_queue], ∀ m ∈ q.messages, m.msize ≤ MAX_MSG_SIZE) ∧
    (sample_queue.total_size : Int) ≤ (MAX_MSG_SIZE : Int) * sample_queue.msg_count :=
  ⟨(C19_bounded_payloads sample_ops sample_replies [sample_queue] (by decide)).1,
    ((C19_bounded_payloads sample_ops sample_replies [sample_queue] (by decide)).2
      sample_queue (List.mem_singleton.mpr rfl) rfl (by decide)).1⟩

/-- C20, the claim as stated fails: after one create and `2^63 - 1` round
trips, queue 0 is in use with an empty list and `total_operations = 2^64 - 2`;
one more send of a six-byte message of type 3 followed by a receive filtered
on type 3 succeeds and leaves `total_operations = 0`, not the old value grown
by 2. -/
theorem C20_counterexample :
    ∃ rs qs qs2,
      run vipc_init (Op.create :: round_trips 9223372036854775807) = some (rs, qs) ∧
      (slot qs 0).in_use = true ∧ (slot qs 0).messages = [] ∧
      (slot qs 0).total_operations = 18446744073709551614 ∧
      run qs [send_op 0 msg_six, recv_op 0 3 wide_recv] =
        some ([Reply.sent 0, Reply.received 0 [10, 11, 12, 13, 14, 15, 0, 0] 6], qs2) ∧
      (slot qs2 0).total_operations = 0 ∧
      (slot qs2 0).total_operations ≠ (slot qs 0).total_operations + 2 := by
  obtain ⟨rs, q1, h1, h2, h3, h4, h5⟩ :=
    run_round_trips 9223372036854775807 (fresh_queue 0) rfl rfl
  have he : exec vipc_init Op.create = some (Reply.created 0, [fresh_queue 0]) := by decide
  have hT : q1.total_operations = 18446744073709551614 := by
    have hlt := h5 (by decide)
    have hz : (fresh_queue 0).total_operations = 0 := rfl
    rw [hz] at h4
    unfold U64_MOD at h4 hlt
    omega
  have hb : bad_qid [q1] 0 = false := by simp [bad_qid, slot, MAX_QUEUES, h2]
  obtain ⟨qs2, k1, _, k3, _, _⟩ := send_then_receive [q1] 0 3 msg_six wide_recv hb
    (by decide) (by decide) (Or.inl ⟨rfl, by decide, by
      intro x hx
      have : (slot [q1] (0 : Int).toNat).messages = [] := h3
      rw [this] at hx
      simp at hx⟩)
  have hfinal : (slot qs2 0).total_operations = 0 := by
    have : (slot qs2 0).total_operations = add_u64 (add_u64 q1.total_operations 1) 1 := by
      have k3a : slot qs2 0 = _ := k3
      rw [k3a]
      rfl
    rw [this, round_trip_ops, hT]
    decide
  refine ⟨Reply.created 0 :: rs, [q1], qs2, run_step _ _ _ _ _ _ _ he h1, h2, h3, hT, k1,
    hfinal, ?_⟩
  rw [hfinal]
  have hT2 : (slot [q1] 0).total_operations = 18446744073709551614 := hT
  rw [hT2]
  decide

/-- C20 (amended): send/receive round trip. On a queue in use with list `L`,
whose `msg_count` is a value of an `int` and whose `total_size` is a value of
a `size_t`, for every payload `p` with `|p| <= MAX_MSG_SIZE` and every
`maxsize >= |p|`: a send of type `t`, followed by a receive with filter `t`
when `t` is nonzero and occurs among no type of `L`, or with filter 0 when `L`
is empty, succeeds both times, writes exactly the bytes of `p` to the start of
the buffer with `*actual_size == |p|`, and restores the list to `L` and
`msg_count` and `total_size` to their values before the send, leaving every
other slot as it was; `total_operations` has grown by 2 modulo `2^64`, that
is by exactly 2 unless it was `2^64 - 2` or more. -/
theorem C20_round_trip (qs : Registry) (qid f : Int) (a : send_args) (b : recv_args)
    (h0 : 0 ≤ qid) (h1 : qid < (MAX_QUEUES : Int)) (hu : (slot qs qid.toNat).in_use = true)
    (hs : a.mtext.length ≤ MAX_MSG_SIZE) (hmax : a.mtext.length ≤ b.maxsize)
    (hf : (f = a.mtype ∧ a.mtype ≠ 0 ∧ ∀ x ∈ (slot qs qid.toNat).messages, x.mtype ≠ a.mtype) ∨
      (f = 0 ∧ (slot qs qid.toNat).messages = []))
    (hc0 : INT_MIN ≤ (slot qs qid.toNat).msg_count)
    (hc1 : (slot qs qid.toNat).msg_count ≤ INT_MAX)
    (hts : (slot qs qid.toNat).total_size < U64_MOD) :
    ∃ qs2, run qs [send_op qid a, recv_op qid f b] =
        some ([Reply.sent 0, Reply.received 0
          (a.mtext ++ b.mtext.drop a.mtext.length) a.mtext.length], qs2) ∧
      (slot qs2 qid.toNat).messages = (slot qs qid.toNat).messages ∧
      (slot qs2 qid.toNat).msg_count = (slot qs qid.toNat).msg_count ∧
      (slot qs2 qid.toNat).total_size = (slot qs qid.toNat).total_size ∧
      (slot qs2 qid.toNat).total_operations
        = ((slot qs qid.toNat).total_operations + 2) % U64_MOD ∧
      ((slot qs qid.toNat).total_operations + 2 < U64_MOD →
        (slot qs2 qid.toNat).total_operations = (slot qs qid.toNat).total_operations + 2) ∧
      (slot qs2 qid.toNat).in_use = true ∧
      ∀ j, j ≠ qid.toNat → slot qs2 j = slot qs j := by
  have hb := bad_qid_of_valid qs qid h0 h1 hu
  obtain ⟨qs2, k1, k2, k3, k4, _⟩ := send_then_receive qs qid f a b hb hs hmax hf
  refine ⟨qs2, k1, ?_, ?_, ?_, ?_, ?_, (bad_qid_false qs2 qid k2).2.2, k4⟩
  · rw [k3]; rfl
  · rw [k3]
    exact round_trip_count _ hc0 hc1
  · rw [k3]
    exact round_trip_size _ _ hts
  · rw [k3]
    exact round_trip_ops _
  · intro hlt
    rw [k3]
    show add_u64 (add_u64 (slot qs qid.toNat).total_operations 1) 1 = _
    rw [round_trip_ops]
    exact Nat.mod_eq_of_lt hlt

/-- C20, an instance: a six-byte message of type 3 sent to the queue left by
`sample_ops` (which holds one message of type 5) and received with filter 3. -/
theorem C20_round_trip_witness :
    ∃ qs2, run [sample_queue] [send_op 0 msg_six, recv_op 0 3 wide_recv] =
        some ([Reply.sent 0, Reply.received 0
          (msg_six.mtext ++ wide_recv.mtext.drop msg_six.mtext.length)
          msg_six.mtext.length], qs2) ∧
      (slot qs2 (0 : Int).toNat).messages = (slot [sample_queue] (0 : Int).toNat).messages ∧
      (slot qs2 (0 : Int).toNat).msg_count = (slot [sample_queue] (0 : Int).toNat).msg_count ∧
      (slot qs2 (0 : Int).toNat).total_size
        = (slot [sample_queue] (0 : Int).toNat).total_size ∧
      (slot qs2 (0 : Int).toNat).total_operations
        = ((slot [sample_queue] (0 : Int).toNat).total_operations + 2) % U64_MOD ∧
      ((slot [sample_queue] (0 : Int).toNat).total_operations + 2 < U64_MOD →
        (slot qs2 (0 : Int).toNat).total_operations
          = (slot [sample_queue] (0 : Int).toNat).total_operations + 2) ∧
      (slot qs2 (0 : Int).toNat).in_use = true ∧
      ∀ j, j ≠ (0 : Int).toNat → slot qs2 j = slot [sample_queue] j :=
  C20_round_trip [sample_queue] 0 3 msg_six wide_recv (by decide) (by decide) (by decide)
    (by decide) (by decide) (Or.inl ⟨rfl, by decide, by decide⟩) (by decide) (by decide)
    (by decide)

end VIPC
